import Mathlib

/-!
A shallow embedding of the email-analyzer VS Code extension, covering the
email parser (`parseEmail` in extension.ts), the analysis pipeline of
`ChatCommandHandler` (`handleSingleEmailAnalysis`, `handleBulkAnalysis`,
`validateRequiredFields`, `classifyTicketType`, the ticket builders and
submitters, and the human-review queue).

External collaborators (the VS Code chat provider, `JSON.parse`, the Jira
and ServiceNow command endpoints, the workspace file reader and the Node
base64 decoder) are modelled as explicit function parameters; a thrown
JavaScript exception is modelled as `Except.error` / `Option.none`.
JavaScript strings are modelled as Lean `String` (a list of characters);
`undefined` string fields are modelled as `Option.none`, and JavaScript
truthiness of a string field (`undefined`, `null` and `""` are falsy) is
made explicit.
-/

namespace EmailAnalyzer

/-- ECMAScript `\s` character class (WhiteSpace plus LineTerminator),
used by the `\s*` parts of the header and attachment regexes and by
`String.prototype.trim`. -/
def jsSpace (c : Char) : Bool :=
  c == ' ' || c == '\t' || c == '\n' || c == '\x0b' || c == '\x0c' || c == '\r' ||
  c == '\u00A0' || c == '\u1680' ||
  (decide (0x2000 <= c.toNat) && decide (c.toNat <= 0x200A)) ||
  c == '\u2028' || c == '\u2029' || c == '\u202F' || c == '\u205F' || c == '\u3000' ||
  c == '\uFEFF'

/-- ECMAScript LineTerminator class: what multiline `$` stops before and
what the dot `.` (without the `s` flag) refuses to match. -/
def lineTerm (c : Char) : Bool :=
  c == '\n' || c == '\r' || c == '\u2028' || c == '\u2029'

/-- The character class `[A-Za-z-]` of the header-key regex in `parseEmail`. -/
def keyChar (c : Char) : Bool :=
  (decide (65 ≤ c.toNat) && decide (c.toNat ≤ 90)) ||
  (decide (97 ≤ c.toNat) && decide (c.toNat ≤ 122)) ||
  c == '-'

/-- ASCII lower-casing of one character, as `String.prototype.toLowerCase`
acts on the ASCII range (the only range the analyzed code compares against). -/
def lowerChar (c : Char) : Char :=
  if 65 ≤ c.toNat ∧ c.toNat ≤ 90 then Char.ofNat (c.toNat + 32) else c

/-- `String.prototype.toLowerCase`, modelled on the ASCII range. -/
def lowerStr (s : String) : String := ⟨s.data.map lowerChar⟩

/-- Match a literal at the head of a character list, returning the remainder
(`none` when the literal is not a prefix of the input). -/
def dropLit : List Char → List Char → Option (List Char)
  | [], s => some s
  | _ :: _, [] => none
  | p :: ps, c :: cs => if p == c then dropLit ps cs else none

/-- Does the literal occur at the head of the input? -/
def litAt (pat s : List Char) : Bool := (dropLit pat s).isSome

/-- Substring test on character lists (the semantics of
`String.prototype.includes` with a non-empty needle). -/
def containsCL (pat : List Char) : List Char → Bool
  | [] => litAt pat []
  | c :: cs => litAt pat (c :: cs) || containsCL pat cs

/-- `haystack.includes(needle)` for JavaScript strings. -/
def strContains (s pat : String) : Bool := containsCL pat.data s.data

/-- `s.startsWith(pre)` for JavaScript strings. -/
def strStartsWith (s pre : String) : Bool := litAt pre.data s.data

/-- JavaScript truthiness of a possibly-absent string value:
`undefined`/`null` and the empty string are falsy. -/
def jsTruthy : Option String → Bool
  | none => false
  | some s => !(s == "")

/-- Rendering of a possibly-absent string value inside a template literal:
`undefined` prints as the string "undefined". -/
def jsStr : Option String → String
  | none => "undefined"
  | some s => s

/-- `xs[i]` inside a template literal: out-of-range indexing yields
`undefined`, which prints as "undefined". -/
def jsIdx (l : List String) (i : Nat) : String :=
  match l.get? i with
  | some s => s
  | none => "undefined"

/-- `content.split('\n\n')`: split on every (non-overlapping, left-to-right)
occurrence of a blank line separator. -/
def splitOnNN : List Char → List (List Char)
  | [] => [[]]
  | '\n' :: '\n' :: rest => [] :: splitOnNN rest
  | c :: cs =>
    match splitOnNN cs with
    | [] => [[c]]
    | x :: xs => (c :: x) :: xs

/-- `s.split('-')`. -/
def splitDash : List Char → List (List Char)
  | [] => [[]]
  | '-' :: rest => [] :: splitDash rest
  | c :: cs =>
    match splitDash cs with
    | [] => [[c]]
    | x :: xs => (c :: x) :: xs

/-- `s.split(': ')`. -/
def splitColonSpace : List Char → List (List Char)
  | [] => [[]]
  | ':' :: ' ' :: rest => [] :: splitColonSpace rest
  | c :: cs =>
    match splitColonSpace cs with
    | [] => [[c]]
    | x :: xs => (c :: x) :: xs

/-- `s.split('\n')`. -/
def splitNL : List Char → List (List Char)
  | [] => [[]]
  | '\n' :: rest => [] :: splitNL rest
  | c :: cs =>
    match splitNL cs with
    | [] => [[c]]
    | x :: xs => (c :: x) :: xs

/-- `s.split(',')`. -/
def splitComma : List Char → List (List Char)
  | [] => [[]]
  | ',' :: rest => [] :: splitComma rest
  | c :: cs =>
    match splitComma cs with
    | [] => [[c]]
    | x :: xs => (c :: x) :: xs

/-- `array.join(sep)`. -/
def joinSep (sep : String) : List String → String
  | [] => ""
  | [x] => x
  | x :: xs => x ++ sep ++ joinSep sep xs

/-- `bodyParts.join('\n\n')` on character lists. -/
def joinNN : List (List Char) → List Char
  | [] => []
  | [x] => x
  | x :: xs => x ++ '\n' :: '\n' :: joinNN xs

/-- `String.prototype.trim` (strips the ECMAScript `\s` class on both ends). -/
def jsTrimCL (l : List Char) : List Char :=
  ((l.dropWhile jsSpace).reverse.dropWhile jsSpace).reverse

/-- `String.prototype.trim` on strings. -/
def jsTrimStr (s : String) : String := ⟨jsTrimCL s.data⟩

/-- `s.replace(pat, repl)` with a non-empty string pattern: JavaScript
replaces only the first occurrence. -/
def replaceFirstCL (pat repl : List Char) : List Char → List Char
  | [] => []
  | c :: cs =>
    match dropLit pat (c :: cs) with
    | some rest => repl ++ rest
    | none => c :: replaceFirstCL pat repl cs

/-- `s.replace(pat, repl)` on strings (first occurrence only). -/
def replaceFirst (s pat repl : String) : String := ⟨replaceFirstCL pat.data repl.data s.data⟩

/-! ## Data model (types/emailTypes.ts, types/chatTypes.ts) -/

/-- `EmailHeader` of emailTypes.ts.  The TypeScript field `from` is a Lean
keyword and is rendered `fromAddr`; the field `to` is likewise a reserved
token and is rendered `toAddr`. -/
structure EmailHeader where
  subject : String
  fromAddr : Option String
  toAddr : Option String
  date : Option String
deriving Repr, DecidableEq

/-- `EmailAttachment` of emailTypes.ts.  `parsedContent` is the flat
header-to-value object built for `text/csv` attachments, modelled as an
insertion-ordered association list with unique keys (a JavaScript object
whose values may be `undefined` when a CSV line has no second field). -/
structure EmailAttachment where
  filename : String
  contentType : String
  content : String
  parsedContent : Option (List (String × Option String))
  extractedText : Option String
deriving Repr, DecidableEq

/-- `ParsedEmail` of emailTypes.ts. -/
structure ParsedEmail where
  headers : EmailHeader
  body : Option String
  attachments : List EmailAttachment
deriving Repr, DecidableEq

/-- `EmailAnalysis` of emailTypes.ts.  The runtime value is produced by
`JSON.parse` and a type-cast, so any field may be absent at runtime; every
field is therefore modelled as optional. -/
structure EmailAnalysis where
  requestType : Option String
  priority : Option String
  keyPoints : Option (List String)
  actionItems : Option (List String)
  accountNumber : Option String
  customerId : Option String
  subject : Option String
  content : Option String
  additionalFields : Option (List (String × String))
  attachments : Option (List EmailAttachment)
deriving Repr, DecidableEq

/-- `JiraTicket` of chatTypes.ts (the `type` union is modelled as a string,
as the code builds it with `ticketType.split('-')[1] as JiraTicket['type']`). -/
structure JiraTicket where
  type : String
  title : String
  description : Option String
  priority : Option String
  accountNumber : Option String
  customerId : Option String
  attachments : Option (List EmailAttachment)
deriving Repr, DecidableEq

/-- `ServiceNowTicket` of chatTypes.ts (same shape as `JiraTicket`). -/
structure ServiceNowTicket where
  type : String
  title : String
  description : Option String
  priority : Option String
  accountNumber : Option String
  customerId : Option String
  attachments : Option (List EmailAttachment)
deriving Repr, DecidableEq

/-- `HumanReviewItem` of chatTypes.ts. -/
structure HumanReviewItem where
  reason : String
  emailContent : String
  missingFields : List String
  partialAnalysis : Option EmailAnalysis
deriving Repr, DecidableEq

/-! ## Email parsing (`parseEmail` in extension.ts)

The header regex is `/^(?<key>[A-Za-z-]+):\s*(?<value>.+)$/gm`.  Matching
against it is deterministic: at a position where multiline `^` holds, the
maximal run of `[A-Za-z-]` must be followed by `:`; then greedy `\s*`
takes the maximal whitespace run, and `(.+)$` matches the rest of the line
when a non-line-terminator character follows; when the whitespace runs to
the end of the input, the engine backtracks into it, and the value becomes
the last non-terminator whitespace character. -/

/-- `\s*(.+)$` after the colon of a header line: returns the captured value
and the remainder of the input after the match. -/
def matchRest (afterColon : List Char) : Option (List Char × List Char) :=
  let ws := afterColon.takeWhile jsSpace
  let rest := afterColon.dropWhile jsSpace
  match rest with
  | _ :: _ =>
    some (rest.takeWhile (fun c => !lineTerm c), rest.dropWhile (fun c => !lineTerm c))
  | [] =>
    match ws.reverse.dropWhile lineTerm with
    | [] => none
    | v :: _ => some ([v], (ws.reverse.takeWhile lineTerm).reverse)

/-- One attempt of the header regex at a line-start position: returns the
`key` and `value` captures and the remainder of the input after the match. -/
def matchHeaderFrom (s : List Char) : Option (List Char × List Char × List Char) :=
  match s.takeWhile keyChar, s.dropWhile keyChar with
  | [], _ => none
  | key, ':' :: afterColon =>
    match matchRest afterColon with
    | some (value, rest) => some (key, value, rest)
    | none => none
  | _, _ => none

/-- `headerSection.matchAll(headerRegex)`: fuel-indexed scan (the fuel is
the input length; each step consumes at least one character).  `atStart`
tracks whether multiline `^` holds at the current position. -/
def scanHeadersF : Nat → Bool → List Char → List (List Char × List Char)
  | 0, _, _ => []
  | _ + 1, _, [] => []
  | fuel + 1, atStart, c :: cs =>
    if atStart then
      match matchHeaderFrom (c :: cs) with
      | some (k, v, rest) => (k, v) :: scanHeadersF fuel false rest
      | none => scanHeadersF fuel (lineTerm c) cs
    else scanHeadersF fuel (lineTerm c) cs

/-- All matches of the header regex over the header section. -/
def scanHeaders (s : List Char) : List (List Char × List Char) :=
  scanHeadersF s.length true s

/-- The switch statement of the header loop: recognized keys (case-folded)
set the corresponding field, unrecognized keys are dropped; guarded by the
JavaScript truthiness test `if (key && value)`. -/
def applyHeader (h : EmailHeader) (kv : List Char × List Char) : EmailHeader :=
  let key := lowerStr ⟨kv.1⟩
  let value : String := ⟨kv.2⟩
  if key == "" || value == "" then h
  else if key == "subject" then { h with subject := value }
  else if key == "from" then { h with fromAddr := some value }
  else if key == "to" then { h with toAddr := some value }
  else if key == "date" then { h with date := some value }
  else h

/-- The initial header object `{ subject: '' }`. -/
def initHeader : EmailHeader := { subject := "", fromAddr := none, toAddr := none, date := none }

/-! ### Attachment extraction

The attachment regex (flags `gs`) is

`--ATTACHMENT--\r?\n+Filename:\s*(.*?)\r?\n+Content-Type:\s*(.*?)\r?\n+Content:\s*([^]*?)\r?\n+--END-ATTACHMENT--`

With the `s` flag the lazy groups match any character.  `\r?\n+` followed by
a literal that starts with neither `\r` nor `\n` is deterministic (an
optional `\r`, then the maximal newline run, then the literal).  Lazy groups
and the greedy `\s*` runs are resolved by explicit backtracking search with
the regex engine's priorities: a lazy group tries the shortest extension
first, a greedy `\s*` the longest. -/

/-- `\r?\n+lit` at the head of the input: returns the remainder after the
literal.  The literals used never start with `\r` or `\n`, which makes the
greedy `\r?` and `\n+` choices forced. -/
def sepThen (lit : List Char) (s : List Char) : Option (List Char) :=
  let s1 := match s with
    | '\r' :: rest => rest
    | _ => s
  match s1 with
  | '\n' :: rest2 => dropLit lit (rest2.dropWhile (fun c => c == '\n'))
  | _ => none

/-- A lazy any-character group followed by a stop pattern followed by the
rest of the regex (`cont`): the group tries the shortest extension first,
and on failure of the continuation extends past the stop pattern.  Returns
the group's capture together with the continuation's result. -/
def lazySearch (stop : List Char → Option (List Char)) (cont : List Char → Option α) :
    List Char → Option (List Char × α)
  | [] =>
    match stop [] with
    | some s2 => (cont s2).map (fun a => ([], a))
    | none => none
  | c :: cs =>
    match (stop (c :: cs)).bind (fun s2 => (cont s2).map (fun a => (([] : List Char), a))) with
    | some r => some r
    | none => (lazySearch stop cont cs).map (fun p => (c :: p.1, p.2))

/-- Greedy `\s*` before the rest of the regex (`f`): the reversed whitespace
run is given back one character at a time when the continuation fails. -/
def wsBacktrack (f : List Char → Option α) : List Char → List Char → Option α
  | wsrev, rest =>
    match f rest with
    | some a => some a
    | none =>
      match wsrev with
      | [] => none
      | c :: wsrev2 => wsBacktrack f wsrev2 (c :: rest)

/-- `\s*` (greedy, with backtracking) followed by the rest of the regex. -/
def greedyWs (f : List Char → Option α) (s : List Char) : Option α :=
  wsBacktrack f (s.takeWhile jsSpace).reverse (s.dropWhile jsSpace)

/-- The three captures of one attachment block together with the remainder
of the input after the match. -/
def tryAttachmentAt (s : List Char) : Option (List Char × List Char × List Char × List Char) :=
  (dropLit "--ATTACHMENT--".data s).bind fun s1 =>
  (sepThen "Filename:".data s1).bind fun s2 =>
  (greedyWs (lazySearch (sepThen "Content-Type:".data) (fun s3 =>
    greedyWs (lazySearch (sepThen "Content:".data) (fun s4 =>
      greedyWs (lazySearch (sepThen "--END-ATTACHMENT--".data) some) s4)) s3)) s2).map
  fun (g1, g2, g3, rest) => (g1, g2, g3, rest)

/-- `bodyContent.matchAll(attachmentRegex)`: fuel-indexed left-to-right scan
(non-overlapping; continues after each match). -/
def scanAttachmentsF : Nat → List Char → List (List Char × List Char × List Char)
  | 0, _ => []
  | _ + 1, [] => []
  | fuel + 1, c :: cs =>
    match tryAttachmentAt (c :: cs) with
    | some (g1, g2, g3, rest) => (g1, g2, g3) :: scanAttachmentsF fuel rest
    | none => scanAttachmentsF fuel cs

/-- All `(filename, contentType, base64Content)` captures of the attachment
regex over the body content. -/
def scanAttachments (s : List Char) : List (List Char × List Char × List Char) :=
  scanAttachmentsF s.length s

/-- `bodyContent.replace(/--ATTACHMENT--[\s\S]*?--END-ATTACHMENT--/g, '')`:
each `--ATTACHMENT--` followed (lazily) by an `--END-ATTACHMENT--` is
removed; an opener with no closer matches nothing. -/
def findEndAfter : List Char → Option (List Char)
  | [] => none
  | c :: cs =>
    match dropLit "--END-ATTACHMENT--".data (c :: cs) with
    | some r => some r
    | none => findEndAfter cs

/-- Fuel-indexed implementation of the attachment-stripping `replace`. -/
def stripAttachmentBlocksF : Nat → List Char → List Char
  | 0, _ => []
  | _ + 1, [] => []
  | fuel + 1, c :: cs =>
    match (dropLit "--ATTACHMENT--".data (c :: cs)).bind findEndAfter with
    | some r2 => stripAttachmentBlocksF fuel r2
    | none => c :: stripAttachmentBlocksF fuel cs

/-- The body text with all attachment blocks removed. -/
def stripAttachmentBlocks (s : List Char) : List Char :=
  stripAttachmentBlocksF s.length s

/-! ### CSV enrichment and attachment construction -/

/-- Updating a JavaScript object (unique keys) with one key/value pair, as
the spread `{ ...obj, ...item }` does: an existing key keeps its position
and gets the new value, a new key is appended. -/
def objInsert : List (String × Option String) → String → Option String →
    List (String × Option String)
  | [], k, v => [(k, v)]
  | p :: o, k, v => if p.1 = k then (k, v) :: o else p :: objInsert o k v

/-- Object lookup: the value stored under a key (`none` when the key is
absent; `some none` when the key is present with an `undefined` value). -/
def lookupObj (o : List (String × Option String)) (k : String) : Option (Option String) :=
  (o.find? (fun p => p.1 == k)).map (fun p => p.2)

/-- The non-blank lines of a decoded CSV attachment
(`split('\n').filter(line => line.trim())`). -/
def nonBlankLines (decoded : String) : List String :=
  ((splitNL decoded.data).map (fun l => (⟨l⟩ : String))).filter
    (fun l => !(jsTrimStr l == ""))

/-- The first CSV field of a line, trimmed (`line.split(',')` destructured
as `[header, ...values]`, then `header.trim()`). -/
def csvLineHeader (line : String) : String :=
  jsTrimStr ⟨((splitComma line.data).headD [])⟩

/-- The second CSV field of a line, trimmed, or `undefined` when the line
has no comma (`values[0]?.trim()`). -/
def csvLineValue (line : String) : Option String :=
  ((splitComma line.data).get? 1).map (fun l => jsTrimStr ⟨l⟩)

/-- The `parsedContent` object of a `text/csv` attachment: each non-blank
line contributes its `header,value` pair, folded left to right into one
flat object (`.reduce((obj, item) => ({ ...obj, ...item }), {})`). -/
def csvParsedContent (decoded : String) : List (String × Option String) :=
  (nonBlankLines decoded).foldl
    (fun obj line => objInsert obj (csvLineHeader line) (csvLineValue line)) []

/-- The body of the attachment loop in `parseEmail`: trim and base64-decode
the captured content (`decode` models `Buffer.from(·, 'base64')` followed by
`toString('utf-8')`, with `none` for a thrown decoding error, which the
`catch` turns into dropping the attachment), then attach the content-type
driven derived fields. -/
def decodeBlock (decode : String → Option String)
    (b : List Char × List Char × List Char) : Option EmailAttachment :=
  match decode (jsTrimStr ⟨b.2.2⟩) with
  | none => none
  | some decodedContent =>
    some { filename := ⟨b.1⟩
           contentType := ⟨b.2.1⟩
           content := decodedContent
           parsedContent :=
             if (⟨b.2.1⟩ : String) == "text/csv" then some (csvParsedContent decodedContent)
             else none
           extractedText :=
             if (⟨b.2.1⟩ : String) == "application/pdf" then some decodedContent
             else none }

/-! ### `parseEmail` -/

/-- The header section of a raw email: the part before the first blank line
(`const [headerSection, ...bodyParts] = content.split('\n\n')`). -/
def headerSectionOf (content : String) : List Char :=
  (splitOnNN content.data).headD []

/-- The body content of a raw email: the remaining parts joined back with
blank lines (`bodyParts.join('\n\n')`). -/
def bodyContentOf (content : String) : List Char :=
  joinNN (splitOnNN content.data).tail

/-- The `(filename, contentType, base64Content)` captures of all attachment
blocks of a raw email. -/
def attachmentBlocksOf (content : String) : List (List Char × List Char × List Char) :=
  scanAttachments (bodyContentOf content)

/-- `parseEmail` of extension.ts.  `decode` is the external base64 decoder
(see `decodeBlock`).  Total: header parsing cannot throw, and a decoding
error is caught per attachment. -/
def parseEmail (decode : String → Option String) (content : String) : ParsedEmail :=
  let headers := (scanHeaders (headerSectionOf content)).foldl applyHeader initHeader
  let bodyWithoutAttachments := stripAttachmentBlocks (bodyContentOf content)
  { headers := headers
    body :=
      if jsTrimCL bodyWithoutAttachments == [] then none
      else some ⟨jsTrimCL bodyWithoutAttachments⟩
    attachments := (attachmentBlocksOf content).filterMap (decodeBlock decode) }

/-! ## ChatCommandHandler (chat/chatCommandHandler.ts) -/

/-- `validateRequiredFields`: the list of missing required fields, pushed in
the fixed source order.  `!analysis.field` is JavaScript truthiness. -/
def validateRequiredFields (analysis : EmailAnalysis) : List String :=
  (if !jsTruthy analysis.requestType then ["Request Type"] else []) ++
  (if !jsTruthy analysis.priority then ["Priority"] else []) ++
  (if !jsTruthy analysis.accountNumber && !jsTruthy analysis.customerId then
    ["Account Number/Customer ID"] else []) ++
  (if !jsTruthy analysis.subject then ["Subject"] else [])

/-- A field of the analysis as the classifier reads it:
`analysis.field?.toLowerCase() || ''` (optional chaining plus falsy
fallback; an absent field and an empty field both become `""`). -/
def lcField (o : Option String) : String := lowerStr (jsStr' o)
where
  /-- `undefined` collapses to the empty string under `|| ''`. -/
  jsStr' : Option String → String
    | none => ""
    | some s => s

/-- `classifyTicketType`: the ordered first-match-wins rule chain. -/
def classifyTicketType (analysis : EmailAnalysis) : String :=
  let content := lcField analysis.content
  let subject := lcField analysis.subject
  let requestType := lcField analysis.requestType
  if requestType == "bug report" || strContains content "bug" ||
      strContains content "crash" then
    "jira-bug"
  else if requestType == "feature request" || strContains content "feature" ||
      strContains subject "feature" then
    "jira-feature"
  else if strContains content "epic" || strContains subject "epic" then
    "jira-epic"
  else if strContains content "story" || strContains subject "story" then
    "jira-story"
  else if strContains content "task" || strContains subject "task" then
    "jira-task"
  else if requestType == "support request" ||
      strContains content "incident" ||
      strContains content "error" ||
      strContains content "broken" ||
      strContains content "trouble" ||
      strContains content "not working" ||
      strContains content "reset" then
    "servicenow-incident"
  else
    "servicenow-request"

/-- `createJiraTicket`. -/
def createJiraTicket (analysis : EmailAnalysis) (type : String) : JiraTicket :=
  { type := type
    title := if jsTruthy analysis.subject then jsStr analysis.subject else "No Subject"
    description := analysis.content
    priority := analysis.priority
    accountNumber := analysis.accountNumber
    customerId := analysis.customerId
    attachments := analysis.attachments }

/-- `createServiceNowTicket`. -/
def createServiceNowTicket (analysis : EmailAnalysis) (type : String) : ServiceNowTicket :=
  { type := type
    title := if jsTruthy analysis.subject then jsStr analysis.subject else "No Subject"
    description := analysis.content
    priority := analysis.priority
    accountNumber := analysis.accountNumber
    customerId := analysis.customerId
    attachments := analysis.attachments }

/-- The external collaborators of the pipeline.  `chat` models
`executeCommand('vscode.chat.open', ·)` (with `none` for a non-string or
missing result); `jsonParse` models `JSON.parse` on the chat result
(`Except.error` for a thrown `SyntaxError`, `.ok none` for a falsy parsed
value, `.ok (some a)` for an object); `jira` models
`executeCommand('jira.createIssue', ·)` returning the response's `key`
(`Except.error` for a thrown transport error), `servicenow` likewise
returns the response's `number`; `readFile` models
`vscode.workspace.fs.readFile`. -/
structure PipelineEnv where
  chat : String → Option String
  jsonParse : String → Except String (Option EmailAnalysis)
  jira : JiraTicket → Except String String
  servicenow : ServiceNowTicket → Except String String
  readFile : String → Except String String

/-- `submitJiraTicket`: a successful external call is rendered as a
confirmation string, a thrown error is wrapped naming the target system and
re-raised. -/
def submitJiraTicket (env : PipelineEnv) (ticket : JiraTicket) : Except String String :=
  match env.jira ticket with
  | .ok key => .ok ("Jira ticket created: " ++ key)
  | .error e => .error ("Failed to create Jira ticket: " ++ e)

/-- `submitServiceNowTicket`: as `submitJiraTicket`, for the incident
system. -/
def submitServiceNowTicket (env : PipelineEnv) (ticket : ServiceNowTicket) :
    Except String String :=
  match env.servicenow ticket with
  | .ok number => .ok ("ServiceNow incident created: " ++ number)
  | .error e => .error ("Failed to create ServiceNow ticket: " ++ e)

/-- `addToHumanReviewQueue`: `this.humanReviewQueue.push(item)`. -/
def addToHumanReviewQueue (queue : List HumanReviewItem) (item : HumanReviewItem) :
    List HumanReviewItem :=
  queue ++ [item]

/-- `getHumanReviewQueue`: `[...this.humanReviewQueue]`, a fresh copy of the
queue (copying is implicit in the value semantics of the model). -/
def getHumanReviewQueue (queue : List HumanReviewItem) : List HumanReviewItem :=
  queue

/-- `handleSingleEmailAnalysis`.  Returns the ordered progress-message list
(the method returns them joined with newlines, see `singleEmailResult`)
together with the items pushed onto `this.humanReviewQueue` during the run.
`Except.error` models an exception escaping the method — the only throw
site is `JSON.parse` on a truthy, non-`'{}'` chat result (the
ticket-submission `try/catch` swallows submission errors into the log). -/
def handleSingleEmailAnalysis (env : PipelineEnv) (emailContent : String) :
    Except String (List String × List HumanReviewItem) :=
  let m0 := ["🔍 Starting email analysis...", "📧 Extracting email data and context..."]
  let chatResult := env.chat emailContent
  let parsed : Except String (Option EmailAnalysis) :=
    if jsTruthy chatResult && !(chatResult == some "{}") then
      env.jsonParse (jsStr chatResult)
    else
      .ok none
  match parsed with
  | .error e => .error e
  | .ok analysisOpt =>
    let queuedReturn : Except String (List String × List HumanReviewItem) :=
      .ok (m0 ++ ["⚠️ Analysis failed - Unable to extract email data",
                  "👤 Email has been queued for human review"],
           [{ reason := "Unable to analyze email"
              emailContent := emailContent
              missingFields := ["Analysis Failed"]
              partialAnalysis := none }])
    match analysisOpt with
    | none => queuedReturn
    | some analysis =>
      if chatResult == some "{}" then queuedReturn
      else
        let m1 := m0 ++
          ["✅ Email data extracted successfully:\n- Subject: " ++ jsStr analysis.subject ++
             "\n- Priority: " ++ jsStr analysis.priority ++
             "\n- Type: " ++ jsStr analysis.requestType,
           "🔍 Validating required fields..."]
        let missingFields := validateRequiredFields analysis
        if 0 < missingFields.length then
          .ok (m1 ++ ["⚠️ Missing required fields: " ++ joinSep ", " missingFields,
                      "👤 Email has been queued for human review"],
               [{ reason := "Missing required fields"
                  emailContent := emailContent
                  missingFields := missingFields
                  partialAnalysis := some analysis }])
        else
          let m2 := m1 ++ ["✅ All required fields validated", "🔄 Classifying request type..."]
          let ticketType := classifyTicketType analysis
          if strStartsWith ticketType "jira-" then
            let kind := jsIdx ((splitDash ticketType.data).map (fun l => (⟨l⟩ : String))) 1
            let m3 := m2 ++ ["📋 Creating Jira " ++ kind ++ " ticket..."]
            match submitJiraTicket env (createJiraTicket analysis kind) with
            | .error e => .ok (m3 ++ ["❌ Error creating ticket: " ++ e], [])
            | .ok result =>
              .ok (m3 ++ ["✅ Jira ticket created successfully!",
                   "\nTicket Details:\n🎫 Type: Jira " ++ kind ++
                     "\n📝 Subject: " ++ jsStr analysis.subject ++
                     "\n🔑 ID: " ++
                       jsIdx ((splitColonSpace result.data).map (fun l => (⟨l⟩ : String))) 1 ++
                     "\n📊 Priority: " ++ jsStr analysis.priority], [])
          else if strStartsWith ticketType "servicenow-" then
            let kind := jsIdx ((splitDash ticketType.data).map (fun l => (⟨l⟩ : String))) 1
            let m3 := m2 ++ ["📋 Creating ServiceNow " ++ kind ++ "..."]
            let submitted :=
              if ticketType == "servicenow-incident" then
                submitServiceNowTicket env (createServiceNowTicket analysis kind)
              else
                (submitServiceNowTicket env (createServiceNowTicket analysis kind)).map
                  (fun r => replaceFirst r "incident" "ticket")
            match submitted with
            | .error e => .ok (m3 ++ ["❌ Error creating ticket: " ++ e], [])
            | .ok result =>
              .ok (m3 ++ ["✅ ServiceNow ticket created successfully!",
                   "\nTicket Details:\n🎫 Type: ServiceNow " ++ kind ++
                     "\n📝 Subject: " ++ jsStr analysis.subject ++
                     "\n🔑 ID: " ++
                       jsIdx ((splitColonSpace result.data).map (fun l => (⟨l⟩ : String))) 1 ++
                     "\n📊 Priority: " ++ jsStr analysis.priority], [])
          else
            .ok (m2 ++ ["⚠️ Email analysis complete, but no ticket was created"], [])

/-- The string the method returns: `progressMessages.join('\n')`. -/
def singleEmailResult (env : PipelineEnv) (emailContent : String) : Except String String :=
  (handleSingleEmailAnalysis env emailContent).map (fun r => joinSep "\n" r.1)

/-- Running the handler against a given state of `this.humanReviewQueue`:
the pushed items land at the end of the queue. -/
def runSingleOnQueue (env : PipelineEnv) (emailContent : String)
    (queue : List HumanReviewItem) : Except String (List String × List HumanReviewItem) :=
  match handleSingleEmailAnalysis env emailContent with
  | .ok (msgs, pushed) => .ok (msgs, queue ++ pushed)
  | .error e => .error e

/-- `'─'.repeat(40)`, the per-file separator line of bulk mode. -/
def bulkSepLine : String := ⟨List.replicate 40 '─'⟩

/-- The per-file loop of `handleBulkAnalysis`: returns the progress
messages, the `results` entries `(file, result-string)` of the files whose
processing completed, and the human-review items queued along the way.  A
thrown error (file read or analysis) is caught per file: an error line is
logged and no `results` entry is pushed. -/
def bulkLoop (env : PipelineEnv) (total : Nat) :
    List String → Nat → List String × List (String × String) × List HumanReviewItem
  | [], _ => ([], [], [])
  | file :: files, i =>
    let head := ["\n📧 Processing email " ++ toString (i + 1) ++ " of " ++ toString total ++
                   "...",
                 "📁 File: " ++ file]
    match env.readFile file with
    | .error e =>
      let (ms, rs, ds) := bulkLoop env total files (i + 1)
      (head ++ ["❌ Error processing email: " ++ e ++ "\n" ++ bulkSepLine] ++ ms, rs, ds)
    | .ok content =>
      match handleSingleEmailAnalysis env content with
      | .error e =>
        let (ms, rs, ds) := bulkLoop env total files (i + 1)
        (head ++ ["❌ Error processing email: " ++ e ++ "\n" ++ bulkSepLine] ++ ms, rs, ds)
      | .ok (msgs, pushed) =>
        let (ms, rs, ds) := bulkLoop env total files (i + 1)
        (head ++ ["✅ Email processed successfully\n" ++ bulkSepLine] ++ ms,
         (file, joinSep "\n" msgs) :: rs,
         pushed ++ ds)

/-- `results.filter(r => r.result.includes('created successfully')).length`. -/
def countCreated (results : List (String × String)) : Nat :=
  (results.filter (fun r => strContains r.2 "created successfully")).length

/-- `results.filter(r => !r.result.includes('created successfully')).length`. -/
def countNotCreated (results : List (String × String)) : Nat :=
  (results.filter (fun r => !strContains r.2 "created successfully")).length

/-- The trailing summary block of bulk mode. -/
def bulkSummary (total : Nat) (results : List (String × String)) : String :=
  "\n📊 Summary:\n✅ Total emails processed: " ++ toString total ++
    "\n🎫 Tickets created: " ++ toString (countCreated results) ++
    "\n⚠️ Failed/Queued for review: " ++ toString (countNotCreated results)

/-- `handleBulkAnalysis`: the ordered progress messages (the method returns
them joined with newlines), the `results` array, and the human-review items
queued during the run. -/
def handleBulkAnalysis (env : PipelineEnv) (files : List String) :
    List String × List (String × String) × List HumanReviewItem :=
  let (ms, rs, ds) := bulkLoop env files.length files 0
  (("🔄 Starting bulk analysis of " ++ toString files.length ++ " emails...\n") ::
     (ms ++ [bulkSummary files.length rs]),
   rs, ds)

/-- Did reading and analyzing this file complete without an exception?
(Queue state cannot influence this: the handler never reads the queue.) -/
def fileProcessedOk (env : PipelineEnv) (file : String) : Bool :=
  match env.readFile file with
  | .error _ => false
  | .ok content =>
    match handleSingleEmailAnalysis env content with
    | .error _ => false
    | .ok _ => true

/-! ## Shared lemmas -/

/-- A literal occurs at the head of the input exactly when the input
decomposes as literal + remainder. -/
theorem litAt_iff (pat s : List Char) : litAt pat s = true ↔ ∃ r, s = pat ++ r := by
  induction pat generalizing s with
  | nil => simp [litAt, dropLit]
  | cons p ps ih =>
    cases s with
    | nil => simp [litAt, dropLit]
    | cons c cs =>
      by_cases hpc : p = c
      · subst hpc
        simp only [litAt, dropLit, beq_self_eq_true, if_true]
        rw [show (dropLit ps cs).isSome = litAt ps cs from rfl, ih]
        constructor
        · rintro ⟨r, rfl⟩; exact ⟨r, rfl⟩
        · rintro ⟨r, hr⟩
          exact ⟨r, by simpa using hr⟩
      · simp only [litAt, dropLit, beq_iff_eq, if_neg hpc, Option.isSome_none]
        constructor
        · intro h; exact absurd h (by simp)
        · rintro ⟨r, hr⟩
          exact absurd (List.cons.inj hr).1 (Ne.symm hpc)

/-- `includes` on character lists is infix decomposition. -/
theorem containsCL_iff (pat s : List Char) :
    containsCL pat s = true ↔ ∃ l r, s = l ++ pat ++ r := by
  induction s with
  | nil =>
    simp only [containsCL, litAt_iff]
    constructor
    · rintro ⟨r, hr⟩
      exact ⟨[], r, by simpa using hr⟩
    · rintro ⟨l, r, hr⟩
      refine ⟨r, ?_⟩
      have := hr.symm
      rw [List.append_assoc] at this
      rcases List.append_eq_nil.mp this with ⟨h1, h2⟩
      simp [h1] at hr ⊢
      exact hr
  | cons c cs ih =>
    simp only [containsCL, Bool.or_eq_true, litAt_iff, ih]
    constructor
    · rintro (⟨r, hr⟩ | ⟨l, r, hr⟩)
      · exact ⟨[], r, by simpa using hr⟩
      · exact ⟨c :: l, r, by simp [hr]⟩
    · rintro ⟨l, r, hr⟩
      cases l with
      | nil => exact Or.inl ⟨r, by simpa using hr⟩
      | cons x xs =>
        obtain ⟨hx, hcs⟩ := List.cons.inj hr
        exact Or.inr ⟨xs, r, hcs⟩

/-- Lower-casing the haystack preserves an occurrence of a needle that is
fixed by lower-casing. -/
theorem strContains_lowerStr (s pat : String)
    (hpat : pat.data.map lowerChar = pat.data)
    (h : strContains s pat = true) : strContains (lowerStr s) pat = true := by
  unfold strContains at h ⊢
  rw [containsCL_iff] at h
  obtain ⟨l, r, hd⟩ := h
  rw [containsCL_iff]
  refine ⟨l.map lowerChar, r.map lowerChar, ?_⟩
  show (s.data.map lowerChar) = _
  rw [hd]
  simp [hpat]

/-- The classifier can only return one of its seven literal results. -/
theorem classifyTicketType_mem (a : EmailAnalysis) :
    classifyTicketType a ∈ ["jira-bug", "jira-feature", "jira-epic", "jira-story",
      "jira-task", "servicenow-incident", "servicenow-request"] := by
  unfold classifyTicketType
  dsimp only
  split_ifs <;> simp

/-! ## C10 — classifier totality -/

/-- C10: the ticket classifier is total over arbitrary analysis records —
absent `requestType`/`subject`/`content` are read as the empty string via
`?.toLowerCase() || ''` (totality itself is inherent in the embedding: the
function is defined on every record) — it always returns one of the seven
strings `jira-bug`, `jira-feature`, `jira-epic`, `jira-story`, `jira-task`,
`servicenow-incident`, `servicenow-request`, and an analysis with all three
fields absent classifies as `servicenow-request`. -/
theorem classifier_total_and_default (a : EmailAnalysis) :
    classifyTicketType a ∈ ["jira-bug", "jira-feature", "jira-epic", "jira-story",
      "jira-task", "servicenow-incident", "servicenow-request"] ∧
    (a.requestType = none → a.subject = none → a.content = none →
      classifyTicketType a = "servicenow-request") := by
  refine ⟨classifyTicketType_mem a, fun hrt hsu hco => ?_⟩
  unfold classifyTicketType
  rw [hrt, hsu, hco]
  rfl

/-- Witness for C10 at a concrete record with all fields absent. -/
theorem classifier_total_and_default_witness :
    classifyTicketType
      { requestType := none, priority := none, keyPoints := none, actionItems := none,
        accountNumber := none, customerId := none, subject := none, content := none,
        additionalFields := none, attachments := none } = "servicenow-request" :=
  (classifier_total_and_default _).2 rfl rfl rfl

/-! ## C1 — classifier rule chain -/

/-- Does the analysis match any of the six classifier rules (in the spec's
formulation: all fields lower-cased before matching)?  The six
parenthesized groups are exactly the six if-conditions of
`classifyTicketType`, in order. -/
def matchesClassifierRule (a : EmailAnalysis) : Bool :=
  let content := lcField a.content
  let subject := lcField a.subject
  let requestType := lcField a.requestType
  (requestType == "bug report" || strContains content "bug" ||
     strContains content "crash") ||
  (requestType == "feature request" || strContains content "feature" ||
     strContains subject "feature") ||
  (strContains content "epic" || strContains subject "epic") ||
  (strContains content "story" || strContains subject "story") ||
  (strContains content "task" || strContains subject "task") ||
  (requestType == "support request" ||
     strContains content "incident" || strContains content "error" ||
     strContains content "broken" || strContains content "trouble" ||
     strContains content "not working" || strContains content "reset")

/-- C1: the classifier is a pure function of the (lower-cased) request
type, subject and content, evaluated as an ordered rule chain where the
first match wins: whenever the request type equals "Bug Report"
case-insensitively, or the content contains "bug" or "crash", the result is
`jira-bug` regardless of any other keyword matches; and an analysis
matching no rule yields `servicenow-request`. -/
theorem classifier_bug_precedence_and_default (a : EmailAnalysis) :
    (((∃ rt, a.requestType = some rt ∧ lowerStr rt = lowerStr "Bug Report") ∨
       (∃ ct, a.content = some ct ∧
         (strContains ct "bug" = true ∨ strContains ct "crash" = true))) →
      classifyTicketType a = "jira-bug") ∧
    (matchesClassifierRule a = false → classifyTicketType a = "servicenow-request") := by
  constructor
  · intro h
    have hcond : (lcField a.requestType == "bug report" ||
        strContains (lcField a.content) "bug" ||
        strContains (lcField a.content) "crash") = true := by
      rcases h with ⟨rt, hrt, hlow⟩ | ⟨ct, hct, hbug | hcrash⟩
      · have : lcField a.requestType = "bug report" := by
          rw [hrt]
          show lowerStr rt = "bug report"
          rw [hlow]; rfl
        simp [this]
      · have : strContains (lcField a.content) "bug" = true := by
          rw [hct]
          exact strContains_lowerStr ct "bug" (by decide) hbug
        simp [this]
      · have : strContains (lcField a.content) "crash" = true := by
          rw [hct]
          exact strContains_lowerStr ct "crash" (by decide) hcrash
        simp [this]
    unfold classifyTicketType
    dsimp only
    rw [if_pos hcond]
  · intro h
    simp only [matchesClassifierRule, Bool.or_eq_false_iff] at h
    obtain ⟨⟨⟨⟨⟨h1, h2⟩, h3⟩, h4⟩, h5⟩, h6⟩ := h
    unfold classifyTicketType
    dsimp only
    rw [if_neg (by simp [h1]), if_neg (by simp [h2]), if_neg (by simp [h3]),
        if_neg (by simp [h4]), if_neg (by simp [h5]), if_neg (by simp [h6])]

/-- Witness for C1: a record matching rule 1 and several later rules still
classifies `jira-bug`; a record matching no rule classifies
`servicenow-request`. -/
theorem classifier_bug_precedence_and_default_witness :
    classifyTicketType
      { requestType := some "bUg RePort", priority := some "high", keyPoints := none,
        actionItems := none, accountNumber := some "A1", customerId := none,
        subject := some "feature epic story task", content := some "A BUG and a feature task",
        additionalFields := none, attachments := none } = "jira-bug" ∧
    classifyTicketType
      { requestType := some "Greeting", priority := some "low", keyPoints := none,
        actionItems := none, accountNumber := some "A1", customerId := none,
        subject := some "hello", content := some "have a nice day",
        additionalFields := none, attachments := none } = "servicenow-request" :=
  ⟨(classifier_bug_precedence_and_default _).1
      (Or.inl ⟨"bUg RePort", rfl, by decide⟩),
   (classifier_bug_precedence_and_default _).2 (by decide)⟩

/-! ## C2 — required-field validation -/

/-- The spec's formulation of the missing-field set: the fixed ordered list
of the four requirements, filtered down to the unmet ones. -/
def missingFieldsSpec (a : EmailAnalysis) : List String :=
  (([("Request Type", jsTruthy a.requestType),
     ("Priority", jsTruthy a.priority),
     ("Account Number/Customer ID", jsTruthy a.accountNumber || jsTruthy a.customerId),
     ("Subject", jsTruthy a.subject)]).filter (fun p => !p.2)).map Prod.fst

/-- The spec's validity condition: all four requirements met. -/
def analysisValid (a : EmailAnalysis) : Prop :=
  jsTruthy a.requestType = true ∧ jsTruthy a.priority = true ∧
  (jsTruthy a.accountNumber = true ∨ jsTruthy a.customerId = true) ∧
  jsTruthy a.subject = true

/-- C2: the field validator returns exactly the unmet requirements among
request type, priority, account-number-or-customer-id, and subject, in that
fixed order; the result is empty exactly when the analysis is valid; and an
analysis missing both `accountNumber` and `customerId` always has
"Account Number/Customer ID" in the result. -/
theorem validateRequiredFields_exact (a : EmailAnalysis) :
    validateRequiredFields a = missingFieldsSpec a ∧
    (validateRequiredFields a = [] ↔ analysisValid a) ∧
    (jsTruthy a.accountNumber = false → jsTruthy a.customerId = false →
      "Account Number/Customer ID" ∈ validateRequiredFields a) := by
  cases h1 : jsTruthy a.requestType <;> cases h2 : jsTruthy a.priority <;>
    cases h3 : jsTruthy a.accountNumber <;> cases h4 : jsTruthy a.customerId <;>
    cases h5 : jsTruthy a.subject <;>
    simp [validateRequiredFields, missingFieldsSpec, analysisValid, h1, h2, h3, h4, h5]

/-- Witness for C2 at a record missing priority and both identifying
fields. -/
theorem validateRequiredFields_exact_witness :
    validateRequiredFields
      { requestType := some "Bug Report", priority := none, keyPoints := none,
        actionItems := none, accountNumber := some "", customerId := none,
        subject := some "s", content := none, additionalFields := none,
        attachments := none } = ["Priority", "Account Number/Customer ID"] ∧
    "Account Number/Customer ID" ∈ validateRequiredFields
      { requestType := some "Bug Report", priority := none, keyPoints := none,
        actionItems := none, accountNumber := some "", customerId := none,
        subject := some "s", content := none, additionalFields := none,
        attachments := none } :=
  ⟨by decide,
   (validateRequiredFields_exact _).2.2 (by decide) (by decide)⟩

/-! ## C3 — empty analysis routes to human review -/

/-- C3: when the analysis provider's response is exactly `'{}'` (or empty,
or not a string at all), the single-email pipeline queues exactly one
human-review item carrying the sentinel "Analysis Failed", its progress log
is exactly the four failure lines — so classification and submission are
never reached — the queue grows by exactly one, and the returned result
string contains "queued for human review". -/
theorem empty_analysis_queues_for_review (env : PipelineEnv) (c : String)
    (h : env.chat c = some "{}" ∨ env.chat c = some "" ∨ env.chat c = none) :
    handleSingleEmailAnalysis env c =
      .ok (["🔍 Starting email analysis...", "📧 Extracting email data and context...",
            "⚠️ Analysis failed - Unable to extract email data",
            "👤 Email has been queued for human review"],
           [{ reason := "Unable to analyze email", emailContent := c,
              missingFields := ["Analysis Failed"], partialAnalysis := none }]) ∧
    (∀ queue, (runSingleOnQueue env c queue).map (fun r => r.2.length) =
      .ok (queue.length + 1)) ∧
    (∃ res, singleEmailResult env c = .ok res ∧
      strContains res "queued for human review" = true) ∧
    (∀ msgs pushed, handleSingleEmailAnalysis env c = .ok (msgs, pushed) →
      "🔄 Classifying request type..." ∉ msgs ∧ "📋 Creating Jira " ∉ msgs) := by
  have main : handleSingleEmailAnalysis env c =
      .ok (["🔍 Starting email analysis...", "📧 Extracting email data and context...",
            "⚠️ Analysis failed - Unable to extract email data",
            "👤 Email has been queued for human review"],
           [{ reason := "Unable to analyze email", emailContent := c,
              missingFields := ["Analysis Failed"], partialAnalysis := none }]) := by
    unfold handleSingleEmailAnalysis
    rcases h with h | h | h <;> rw [h] <;> rfl
  refine ⟨main, ?_, ?_, ?_⟩
  · intro queue
    unfold runSingleOnQueue
    rw [main]
    simp [Except.map]
  · refine ⟨"🔍 Starting email analysis...\n📧 Extracting email data and context...\n⚠️ Analysis failed - Unable to extract email data\n👤 Email has been queued for human review",
      ?_, by decide⟩
    unfold singleEmailResult
    rw [main]
    rfl
  · intro msgs pushed hmp
    rw [main] at hmp
    obtain ⟨h1, _⟩ := Prod.mk.injEq .. ▸ Except.ok.inj hmp
    subst h1
    exact ⟨by decide, by decide⟩

/-- Witness for C3 with a provider that answers `'{}'`. -/
theorem empty_analysis_queues_for_review_witness :
    handleSingleEmailAnalysis
      { chat := fun _ => some "{}", jsonParse := fun _ => .error "unused",
        jira := fun _ => .ok "PROJ-1", servicenow := fun _ => .ok "INC1",
        readFile := fun _ => .error "unused" } "raw email" =
      .ok (["🔍 Starting email analysis...", "📧 Extracting email data and context...",
            "⚠️ Analysis failed - Unable to extract email data",
            "👤 Email has been queued for human review"],
           [{ reason := "Unable to analyze email", emailContent := "raw email",
              missingFields := ["Analysis Failed"], partialAnalysis := none }]) :=
  (empty_analysis_queues_for_review _ "raw email" (Or.inl rfl)).1

/-! ## C9 — human-review queue is append-only -/

/-- C9: the human-review queue is append-only.  `addToHumanReviewQueue` is
the only mutator: it appends exactly one item at the end (the length grows
by one, the existing items are untouched, the new item is last); the
snapshot accessor returns a sequence equal to the internal queue (it is a
fresh copy in the source, which value semantics make implicit here); and a
whole single-email run only ever extends the queue it started from. -/
theorem humanReviewQueue_append_only :
    (∀ (queue : List HumanReviewItem) (item : HumanReviewItem),
      (addToHumanReviewQueue queue item).take queue.length = queue ∧
      (addToHumanReviewQueue queue item).length = queue.length + 1 ∧
      (addToHumanReviewQueue queue item).drop queue.length = [item]) ∧
    (∀ queue : List HumanReviewItem, getHumanReviewQueue queue = queue) ∧
    (∀ env c queue msgs queue2, runSingleOnQueue env c queue = .ok (msgs, queue2) →
      ∃ pushed, queue2 = queue ++ pushed) := by
  refine ⟨fun queue item => ⟨?_, ?_, ?_⟩, fun _ => rfl, ?_⟩
  · exact List.take_left queue [item]
  · simp [addToHumanReviewQueue]
  · exact List.drop_left queue [item]
  · intro env c queue msgs queue2 hrun
    unfold runSingleOnQueue at hrun
    cases hh : handleSingleEmailAnalysis env c with
    | error e => rw [hh] at hrun; exact absurd hrun (by simp)
    | ok r =>
      rw [hh] at hrun
      obtain ⟨-, h2⟩ := Prod.mk.injEq .. ▸ Except.ok.inj hrun
      exact ⟨r.2, h2.symm⟩

/-- Witness for C9: one enqueue on a concrete queue, and a concrete run
(provider answering `'{}'`) whose final queue extends the starting queue. -/
theorem humanReviewQueue_append_only_witness :
    (addToHumanReviewQueue
        [{ reason := "r0", emailContent := "e0", missingFields := [],
           partialAnalysis := none }]
        { reason := "r1", emailContent := "e1", missingFields := ["Subject"],
          partialAnalysis := none }).take 1 =
      [{ reason := "r0", emailContent := "e0", missingFields := [],
         partialAnalysis := none }] ∧
    ∃ pushed,
      ([{ reason := "r0", emailContent := "e0", missingFields := [],
          partialAnalysis := none },
        { reason := "Unable to analyze email", emailContent := "raw",
          missingFields := ["Analysis Failed"], partialAnalysis := none }] :
         List HumanReviewItem) =
        [{ reason := "r0", emailContent := "e0", missingFields := [],
           partialAnalysis := none }] ++ pushed :=
  ⟨(humanReviewQueue_append_only.1
      [{ reason := "r0", emailContent := "e0", missingFields := [],
         partialAnalysis := none }]
      { reason := "r1", emailContent := "e1", missingFields := ["Subject"],
        partialAnalysis := none }).1,
   humanReviewQueue_append_only.2.2
     { chat := fun _ => some "{}", jsonParse := fun _ => .error "unused",
       jira := fun _ => .ok "PROJ-1", servicenow := fun _ => .ok "INC1",
       readFile := fun _ => .error "unused" }
     "raw"
     [{ reason := "r0", emailContent := "e0", missingFields := [],
        partialAnalysis := none }]
     ["🔍 Starting email analysis...", "📧 Extracting email data and context...",
      "⚠️ Analysis failed - Unable to extract email data",
      "👤 Email has been queued for human review"]
     _ rfl⟩

/-! ## C4 — subject extraction -/

/-- One unfolding step of `splitOnNN` when the input does not start with a
blank-line separator. -/
theorem splitOnNN_cons_step (c : Char) (cs : List Char)
    (h : c ≠ '\n' ∨ ∃ d rest, cs = d :: rest ∧ d ≠ '\n') :
    splitOnNN (c :: cs) =
      match splitOnNN cs with
      | [] => [[c]]
      | x :: xs => (c :: x) :: xs := by
  conv_lhs => rw [splitOnNN.eq_def]
  split
  · rename_i heq; exact absurd heq (by simp)
  · rename_i rest heq
    obtain ⟨h1, h2⟩ := List.cons.inj heq
    rcases h with h | ⟨d, r2, hcs, hd⟩
    · exact absurd h1 h
    · rw [hcs] at h2
      exact absurd (List.cons.inj h2).1 hd
  · rename_i c2 cs2 _ heq
    obtain ⟨h1, h2⟩ := List.cons.inj heq
    subst h1; rw [h2]

/-- `cleanNN l`: `l` contains no blank-line separator and does not end in a
newline, so appending a blank line after `l` splits exactly there. -/
def cleanNN : List Char → Bool
  | [] => true
  | ['\n'] => false
  | '\n' :: '\n' :: _ => false
  | _ :: rest => cleanNN rest

/-- One unfolding step of `cleanNN` off a head that is neither a trailing
newline nor the start of a blank-line separator. -/
theorem cleanNN_cons_step (c : Char) (cs : List Char)
    (h : c ≠ '\n' ∨ ∃ d rest, cs = d :: rest ∧ d ≠ '\n') :
    cleanNN (c :: cs) = cleanNN cs := by
  conv_lhs => rw [cleanNN.eq_def]
  split
  · rename_i heq; exact absurd heq (by simp)
  · rename_i heq
    obtain ⟨h1, h2⟩ := List.cons.inj heq
    rcases h with h | ⟨d, r2, hcs, hd⟩
    · exact absurd h1 h
    · rw [hcs] at h2; exact absurd h2 (by simp)
  · rename_i rest heq
    obtain ⟨h1, h2⟩ := List.cons.inj heq
    rcases h with h | ⟨d, r2, hcs, hd⟩
    · exact absurd h1 h
    · rw [hcs] at h2
      exact absurd (List.cons.inj h2).1 hd
  · rename_i c2 cs2 _ heq
    obtain ⟨h1, h2⟩ := List.cons.inj heq
    subst h1; rw [h2]

/-- A newline-free list is clean. -/
theorem cleanNN_of_no_newline (l : List Char) (h : ∀ c ∈ l, c ≠ '\n') :
    cleanNN l = true := by
  induction l with
  | nil => rfl
  | cons c cs ih =>
    rw [cleanNN_cons_step c cs (Or.inl (h c (List.mem_cons_self c cs)))]
    exact ih (fun x hx => h x (List.mem_cons_of_mem c hx))

/-- Prepending a newline-free list preserves cleanliness. -/
theorem cleanNN_append_noNL (l : List Char) (hl : ∀ c ∈ l, c ≠ '\n')
    (m : List Char) (hm : cleanNN m = true) : cleanNN (l ++ m) = true := by
  induction l with
  | nil => exact hm
  | cons c cs ih =>
    rw [List.cons_append, cleanNN_cons_step c _ (Or.inl (hl c (List.mem_cons_self c cs)))]
    exact ih (fun x hx => hl x (List.mem_cons_of_mem c hx))

/-- Splitting at an appended blank line after a clean prefix. -/
theorem splitOnNN_append_clean (l : List Char) (h : cleanNN l = true) (m : List Char) :
    splitOnNN (l ++ '\n' :: '\n' :: m) = l :: splitOnNN m := by
  induction l with
  | nil => rfl
  | cons c l ih =>
    by_cases hc : c = '\n'
    · subst hc
      obtain ⟨d, l2, rfl, hd⟩ : ∃ d l2, l = d :: l2 ∧ d ≠ '\n' := by
        cases l with
        | nil => exact absurd h (by decide)
        | cons d l2 =>
          refine ⟨d, l2, rfl, ?_⟩
          intro hdn
          subst hdn
          rw [show cleanNN ('\n' :: '\n' :: l2) = false from rfl] at h
          exact absurd h (by simp)
      have hcl : cleanNN (d :: l2) = true := by
        rw [← cleanNN_cons_step '\n' (d :: l2) (Or.inr ⟨d, l2, rfl, hd⟩)]
        exact h
      simp only [List.cons_append] at ih ⊢
      rw [splitOnNN_cons_step '\n' (d :: (l2 ++ '\n' :: '\n' :: m))
            (Or.inr ⟨d, l2 ++ '\n' :: '\n' :: m, rfl, hd⟩),
          ih hcl]
    · have hcl : cleanNN l = true := by
        rw [← cleanNN_cons_step c l (Or.inl hc)]
        exact h
      rw [show (c :: l) ++ '\n' :: '\n' :: m = c :: (l ++ '\n' :: '\n' :: m) from rfl,
          splitOnNN_cons_step c _ (Or.inl hc), ih hcl]

/-- The fuel-indexed header scan on the empty input. -/
theorem scanHeadersF_nil (fuel : Nat) (atStart : Bool) : scanHeadersF fuel atStart [] = [] := by
  cases fuel <;> rfl

/-- One step of the fuel-indexed header scan. -/
theorem scanHeadersF_cons_succ (n : Nat) (atStart : Bool) (c : Char) (cs : List Char) :
    scanHeadersF (n + 1) atStart (c :: cs) =
      if atStart then
        match matchHeaderFrom (c :: cs) with
        | some (k, v, rest) => (k, v) :: scanHeadersF n false rest
        | none => scanHeadersF n (lineTerm c) cs
      else scanHeadersF n (lineTerm c) cs := rfl

/-- `takeWhile` runs through a prefix on which the predicate holds. -/
theorem takeWhile_append_all {p : Char → Bool} (l1 l2 : List Char)
    (h : ∀ c ∈ l1, p c = true) :
    (l1 ++ l2).takeWhile p = l1 ++ l2.takeWhile p := by
  induction l1 with
  | nil => rfl
  | cons c l1 ih =>
    rw [List.cons_append, List.takeWhile_cons, h c (List.mem_cons_self c l1),
        ih (fun x hx => h x (List.mem_cons_of_mem c hx))]
    simp

/-- `dropWhile` skips a prefix on which the predicate holds. -/
theorem dropWhile_append_all {p : Char → Bool} (l1 l2 : List Char)
    (h : ∀ c ∈ l1, p c = true) :
    (l1 ++ l2).dropWhile p = l2.dropWhile p := by
  induction l1 with
  | nil => rfl
  | cons c l1 ih =>
    rw [List.cons_append, List.dropWhile_cons, h c (List.mem_cons_self c l1),
        ih (fun x hx => h x (List.mem_cons_of_mem c hx))]
    simp

/-- Line terminators are whitespace, so a non-whitespace character is never
a line terminator. -/
theorem lineTerm_eq_false_of_jsSpace (c : Char) (h : jsSpace c = false) :
    lineTerm c = false := by
  cases hlt : lineTerm c
  · rfl
  · exfalso
    simp only [lineTerm, Bool.or_eq_true, beq_iff_eq] at hlt
    rcases hlt with ((rfl | rfl) | rfl) | rfl <;> exact absurd h (by decide)

/-- A well-formed `Key: value` header line for the fidelity theorem: a
non-empty key, inline padding after the colon, a non-empty value. -/
structure HeaderLine where
  keyHead : Char
  keyTail : List Char
  pad : List Char
  valueHead : Char
  valueTail : List Char
deriving Repr, DecidableEq

/-- The key characters of a header line. -/
def HeaderLine.key (l : HeaderLine) : List Char := l.keyHead :: l.keyTail

/-- The value characters of a header line. -/
def HeaderLine.value (l : HeaderLine) : List Char := l.valueHead :: l.valueTail

/-- The raw text of a header line: key, colon, padding, value. -/
def renderHeaderLine (l : HeaderLine) : List Char :=
  l.key ++ ':' :: (l.pad ++ l.value)

/-- The raw header block: the lines joined with single newlines. -/
def renderHeaderBlock : List HeaderLine → List Char
  | [] => []
  | [l] => renderHeaderLine l
  | l :: ls => renderHeaderLine l ++ '\n' :: renderHeaderBlock ls

/-- Well-formedness of a header line: the key is made of `[A-Za-z-]`
characters, the padding after the colon is inline whitespace (no line
terminator), and the value starts with a non-whitespace character and
contains no line terminator.  Within this fragment each physical line
produces exactly one header-regex match; outside it the regex can swallow
following lines (see the counterexample). -/
def wfHeaderLine (l : HeaderLine) : Prop :=
  (∀ c ∈ l.key, keyChar c = true) ∧
  (∀ c ∈ l.pad, jsSpace c = true ∧ lineTerm c = false) ∧
  jsSpace l.valueHead = false ∧
  (∀ c ∈ l.value, lineTerm c = false)

instance (l : HeaderLine) : Decidable (wfHeaderLine l) :=
  inferInstanceAs (Decidable ((∀ c ∈ l.key, keyChar c = true) ∧
    (∀ c ∈ l.pad, jsSpace c = true ∧ lineTerm c = false) ∧
    jsSpace l.valueHead = false ∧
    (∀ c ∈ l.value, lineTerm c = false)))

/-- `\s*(.+)$` after the colon of a well-formed line captures exactly the
value: the padding is consumed and the capture stops at the line end. -/
theorem matchRest_wf (pad : List Char) (vh : Char) (vt rest : List Char)
    (hpad : ∀ c ∈ pad, jsSpace c = true)
    (hvh : jsSpace vh = false)
    (hvterm : ∀ c ∈ vh :: vt, lineTerm c = false)
    (hrest : ∀ d, rest.head? = some d → lineTerm d = true) :
    matchRest (pad ++ (vh :: vt) ++ rest) = some (vh :: vt, rest) := by
  have hassoc : pad ++ (vh :: vt) ++ rest = pad ++ (vh :: (vt ++ rest)) := by
    simp [List.append_assoc]
  have htake : (pad ++ (vh :: (vt ++ rest))).takeWhile jsSpace = pad := by
    rw [takeWhile_append_all pad _ hpad, List.takeWhile_cons, hvh]
    simp
  have hdrop : (pad ++ (vh :: (vt ++ rest))).dropWhile jsSpace = vh :: (vt ++ rest) := by
    rw [dropWhile_append_all pad _ hpad, List.dropWhile_cons, hvh]
    rfl
  have hvalue_take : ((vh :: vt) ++ rest).takeWhile (fun c => !lineTerm c) = vh :: vt := by
    rw [takeWhile_append_all _ _ (fun c hc => by simp [hvterm c hc])]
    have h2 : rest.takeWhile (fun c => !lineTerm c) = [] := by
      cases rest with
      | nil => rfl
      | cons d r2 =>
        rw [List.takeWhile_cons]
        simp [hrest d rfl]
    rw [h2]
    simp
  have hvalue_drop : ((vh :: vt) ++ rest).dropWhile (fun c => !lineTerm c) = rest := by
    rw [dropWhile_append_all _ _ (fun c hc => by simp [hvterm c hc])]
    cases rest with
    | nil => rfl
    | cons d r2 =>
      rw [List.dropWhile_cons]
      simp [hrest d rfl]
  rw [hassoc]
  unfold matchRest
  rw [htake, hdrop]
  dsimp only
  rw [show vh :: (vt ++ rest) = (vh :: vt) ++ rest from rfl, hvalue_take, hvalue_drop]

/-- The header regex matches a well-formed line at its start, capturing the
key and the value and consuming through the end of the line. -/
theorem matchHeaderFrom_wf (l : HeaderLine) (hwf : wfHeaderLine l) (rest : List Char)
    (hrest : ∀ d, rest.head? = some d → lineTerm d = true) :
    matchHeaderFrom (renderHeaderLine l ++ rest) = some (l.key, l.value, rest) := by
  obtain ⟨hkey, hpad, hvh, hvterm⟩ := hwf
  have hshape : renderHeaderLine l ++ rest =
      l.key ++ ':' :: ((l.pad ++ l.value) ++ rest) := by
    unfold renderHeaderLine
    rw [List.append_assoc, List.cons_append]
  have hcolon : keyChar ':' = false := by decide
  have e1 : (renderHeaderLine l ++ rest).takeWhile keyChar = l.keyHead :: l.keyTail := by
    rw [hshape, takeWhile_append_all _ _ hkey, List.takeWhile_cons, hcolon]
    simp [HeaderLine.key]
  have e2 : (renderHeaderLine l ++ rest).dropWhile keyChar =
      ':' :: ((l.pad ++ l.value) ++ rest) := by
    rw [hshape, dropWhile_append_all _ _ hkey, List.dropWhile_cons, hcolon]
    rfl
  have erest : matchRest ((l.pad ++ l.value) ++ rest) = some (l.value, rest) :=
    matchRest_wf l.pad l.valueHead l.valueTail rest
      (fun c hc => (hpad c hc).1) hvh hvterm hrest
  unfold matchHeaderFrom
  rw [e1, e2]
  split
  · rename_i heq
    exact absurd heq (by simp)
  · rename_i afterColon heq _
    injection heq with h1 h2
    subst h2
    rw [erest]
    simp [HeaderLine.key]
  · rename_i hne
    exact absurd rfl (hne (l.pad ++ l.value ++ rest))

/-- The header scan over a well-formed block: one match per line, in
order, capturing each key and value verbatim. -/
theorem scanHeadersF_wf_block (lines : List HeaderLine)
    (hwf : ∀ l ∈ lines, wfHeaderLine l) :
    ∀ fuel, (renderHeaderBlock lines).length ≤ fuel →
      scanHeadersF fuel true (renderHeaderBlock lines) =
        lines.map (fun l => (l.key, l.value)) := by
  induction lines with
  | nil => intro fuel _; exact scanHeadersF_nil fuel true
  | cons l ls ih =>
    intro fuel hfuel
    have hwl := hwf l (List.mem_cons_self l ls)
    have ht : renderHeaderLine l =
        l.keyHead :: (l.keyTail ++ ':' :: (l.pad ++ l.value)) := rfl
    cases ls with
    | nil =>
      have hm := matchHeaderFrom_wf l hwl [] (fun d hd => by simp at hd)
      rw [List.append_nil] at hm
      cases fuel with
      | zero =>
        rw [show renderHeaderBlock [l] = renderHeaderLine l from rfl, ht] at hfuel
        simp at hfuel
      | succ n =>
        show scanHeadersF (n + 1) true (renderHeaderBlock [l]) = [(l.key, l.value)]
        rw [show renderHeaderBlock [l] = renderHeaderLine l from rfl, ht,
            scanHeadersF_cons_succ, if_pos rfl, ← ht, hm]
        dsimp only
        rw [scanHeadersF_nil]
    | cons l2 ls2 =>
      have hm := matchHeaderFrom_wf l hwl ('\n' :: renderHeaderBlock (l2 :: ls2))
        (fun d hd => by
          simp at hd
          rw [← hd]
          rfl)
      have hshape : renderHeaderBlock (l :: l2 :: ls2) =
          renderHeaderLine l ++ '\n' :: renderHeaderBlock (l2 :: ls2) := rfl
      have hlen : (renderHeaderBlock (l2 :: ls2)).length + 2 ≤
          (renderHeaderBlock (l :: l2 :: ls2)).length := by
        rw [hshape, ht]
        simp [List.length_append]
        omega
      cases fuel with
      | zero => omega
      | succ n =>
        cases n with
        | zero => omega
        | succ m =>
          have ht2 : renderHeaderBlock (l :: l2 :: ls2) =
              l.keyHead :: ((l.keyTail ++ ':' :: (l.pad ++ l.value)) ++
                '\n' :: renderHeaderBlock (l2 :: ls2)) := by
            rw [hshape, ht]
            rfl
          rw [ht2, scanHeadersF_cons_succ, if_pos rfl,
              show l.keyHead :: ((l.keyTail ++ ':' :: (l.pad ++ l.value)) ++
                  '\n' :: renderHeaderBlock (l2 :: ls2)) =
                renderHeaderLine l ++ '\n' :: renderHeaderBlock (l2 :: ls2) from by
                rw [ht]; rfl,
              hm]
          dsimp only
          congr 1
          rw [show scanHeadersF (m + 1) false ('\n' :: renderHeaderBlock (l2 :: ls2)) =
                scanHeadersF m (lineTerm '\n') (renderHeaderBlock (l2 :: ls2)) from rfl,
              show lineTerm '\n' = true from rfl]
          exact ih (fun x hx => hwf x (List.mem_cons_of_mem l hx)) m (by omega)

/-- A well-formed line contains no newline character. -/
theorem renderHeaderLine_no_newline (l : HeaderLine) (hwf : wfHeaderLine l) :
    ∀ c ∈ renderHeaderLine l, c ≠ '\n' := by
  obtain ⟨hkey, hpad, hvh, hvterm⟩ := hwf
  intro c hc
  unfold renderHeaderLine at hc
  rcases List.mem_append.mp hc with hk | hrest
  · intro hcon
    subst hcon
    exact absurd (hkey _ hk) (by decide)
  · rcases List.mem_cons.mp hrest with rfl | hpv
    · decide
    · rcases List.mem_append.mp hpv with hp | hv
      · intro hcon
        subst hcon
        exact absurd (hpad _ hp).2 (by decide)
      · intro hcon
        subst hcon
        exact absurd (hvterm _ hv) (by decide)

/-- A well-formed block is clean: no blank line and no trailing newline. -/
theorem renderHeaderBlock_clean (lines : List HeaderLine)
    (hwf : ∀ l ∈ lines, wfHeaderLine l) :
    cleanNN (renderHeaderBlock lines) = true := by
  induction lines with
  | nil => rfl
  | cons l ls ih =>
    have hline := renderHeaderLine_no_newline l (hwf l (List.mem_cons_self l ls))
    cases ls with
    | nil => exact cleanNN_of_no_newline _ hline
    | cons l2 ls2 =>
      show cleanNN (renderHeaderLine l ++ '\n' :: renderHeaderBlock (l2 :: ls2)) = true
      have hkc : keyChar l2.keyHead = true :=
        (hwf l2 (by simp)).1 l2.keyHead (by simp [HeaderLine.key])
      have hkn : l2.keyHead ≠ '\n' := by
        intro hcon
        rw [hcon] at hkc
        exact absurd hkc (by decide)
      have hhead : ∃ rest, renderHeaderBlock (l2 :: ls2) = l2.keyHead :: rest := by
        cases ls2 with
        | nil => exact ⟨_, rfl⟩
        | cons l3 ls3 => exact ⟨_, rfl⟩
      obtain ⟨rest, hdr⟩ := hhead
      have hmm : cleanNN ('\n' :: renderHeaderBlock (l2 :: ls2)) = true := by
        rw [cleanNN_cons_step '\n' _ (Or.inr ⟨l2.keyHead, rest, hdr, hkn⟩)]
        exact ih (fun x hx => hwf x (List.mem_cons_of_mem l hx))
      exact cleanNN_append_noNL _ hline _ hmm

/-- Does applying this key/value pair set the subject field?  (A non-empty
value whose key case-folds to "subject"; regex captures are never empty,
but the guard in the source also skips empty ones.) -/
def setsSubject (kv : List Char × List Char) : Bool :=
  !((⟨kv.2⟩ : String) == "") && (lowerStr ⟨kv.1⟩ == "subject")

/-- The subject field after one `applyHeader` step. -/
theorem applyHeader_subject_of (h0 : EmailHeader) (kv : List Char × List Char) :
    (applyHeader h0 kv).subject =
      if setsSubject kv then (⟨kv.2⟩ : String) else h0.subject := by
  unfold applyHeader setsSubject
  dsimp only
  by_cases hv : ((⟨kv.2⟩ : String) == "") = true
  · rw [if_pos (by simp [hv])]
    simp [hv]
  · by_cases hk0 : (lowerStr ⟨kv.1⟩ == "") = true
    · rw [if_pos (by simp [hk0])]
      have hns : (lowerStr ⟨kv.1⟩ == "subject") = false := by
        have he : lowerStr ⟨kv.1⟩ = "" := by simpa using hk0
        rw [he]
        decide
      simp [hns]
    · rw [if_neg (by simp [hv, hk0])]
      by_cases hks : (lowerStr ⟨kv.1⟩ == "subject") = true
      · rw [if_pos hks]
        simp [hv, hks]
      · rw [if_neg hks,
            if_neg (show ¬((!((⟨kv.2⟩ : String) == "") && (lowerStr ⟨kv.1⟩ == "subject")) = true)
              from by simp [hks])]
        split_ifs <;> rfl

/-- Folding header matches into the header object: the subject field holds
the value of the last match that sets it. -/
theorem foldl_applyHeader_subject_last (kvs : List (List Char × List Char))
    (h0 : EmailHeader) :
    (kvs.foldl applyHeader h0).subject =
      match (kvs.filter setsSubject).getLast? with
      | some kv => (⟨kv.2⟩ : String)
      | none => h0.subject := by
  induction kvs generalizing h0 with
  | nil => rfl
  | cons kv kvs ih =>
    rw [List.foldl_cons, ih, List.filter_cons]
    by_cases hs : setsSubject kv = true
    · rw [if_pos hs]
      cases hfil : kvs.filter setsSubject with
      | nil =>
        rw [List.getLast?_nil, List.getLast?_singleton]
        dsimp only
        rw [applyHeader_subject_of, if_pos hs]
      | cons x xs =>
        rw [List.getLast?_cons_cons]
        cases hgl : (x :: xs).getLast? with
        | none => exact absurd (List.getLast?_eq_none_iff.mp hgl) (by simp)
        | some y => rfl
    · rw [if_neg hs]
      cases hgl : (kvs.filter setsSubject).getLast? with
      | none =>
        dsimp only
        rw [applyHeader_subject_of, if_neg hs]
      | some y => rfl

/-- A header fold leaves `subject` untouched when no match's key
case-folds to "subject". -/
theorem foldl_applyHeader_no_subject (kvs : List (List Char × List Char))
    (h : ∀ kv ∈ kvs, lowerStr ⟨kv.1⟩ ≠ "subject") (h0 : EmailHeader) :
    (kvs.foldl applyHeader h0).subject = h0.subject := by
  induction kvs generalizing h0 with
  | nil => rfl
  | cons kv kvs ih =>
    rw [List.foldl_cons, ih (fun x hx => h x (List.mem_cons_of_mem kv hx))]
    have hkv := h kv (List.mem_cons_self kv kvs)
    unfold applyHeader
    dsimp only
    split_ifs with g1 g2 g3 g4 g5 <;> first | rfl | exact absurd (by simpa using g2) hkv

/-- C4 (amended): for every raw email whose header block consists of
well-formed `Key: value` lines (`wfHeaderLine`: keys over `[A-Za-z-]`,
only inline whitespace after the colon, values non-empty, starting with a
non-whitespace character and free of line terminators), `headers.subject`
is the value of the last line whose key case-folds to "subject" — taken
verbatim to the end of the line, so the whitespace between the colon and
the value is stripped but trailing whitespace is preserved, not trimmed —
and the empty string when there is no such line; and for every email
whose header scan yields no match with a key case-folding to "subject",
`headers.subject` is the empty string (the parser is total, so parsing
never fails). -/
theorem parseEmail_subject_amended :
    (∀ (decode : String → Option String) (lines : List HeaderLine) (body : String),
      (∀ l ∈ lines, wfHeaderLine l) →
      (parseEmail decode
          ((⟨renderHeaderBlock lines⟩ : String) ++ "\n\n" ++ body)).headers.subject =
        match (lines.filter (fun l => lowerStr ⟨l.key⟩ == "subject")).getLast? with
        | some l => (⟨l.value⟩ : String)
        | none => "") ∧
    (∀ (decode : String → Option String) (content : String),
      (∀ kv ∈ scanHeaders (headerSectionOf content), lowerStr ⟨kv.1⟩ ≠ "subject") →
      (parseEmail decode content).headers.subject = "") := by
  constructor
  · intro decode lines body hwf
    have hclean : cleanNN (renderHeaderBlock lines) = true :=
      renderHeaderBlock_clean lines hwf
    have hdata : ((⟨renderHeaderBlock lines⟩ : String) ++ "\n\n" ++ body).data =
        renderHeaderBlock lines ++ '\n' :: '\n' :: body.data := by
      simp [String.data_append]
    have hsec : headerSectionOf ((⟨renderHeaderBlock lines⟩ : String) ++ "\n\n" ++ body) =
        renderHeaderBlock lines := by
      unfold headerSectionOf
      rw [hdata, splitOnNN_append_clean _ hclean]
      rfl
    show ((scanHeaders (headerSectionOf _)).foldl applyHeader initHeader).subject = _
    rw [hsec]
    unfold scanHeaders
    rw [scanHeadersF_wf_block lines hwf _ (Nat.le_refl _)]
    rw [foldl_applyHeader_subject_last]
    have hfil : (lines.map (fun l => (l.key, l.value))).filter setsSubject =
        (lines.filter (fun l => lowerStr ⟨l.key⟩ == "subject")).map
          (fun l => (l.key, l.value)) := by
      rw [List.filter_map]
      congr 1
    rw [hfil, List.getLast?_map]
    cases (lines.filter (fun l => lowerStr ⟨l.key⟩ == "subject")).getLast? <;> rfl
  · intro decode content h
    exact foldl_applyHeader_no_subject _ h _

/-- Counterexample to C4 as stated: a subject value with trailing
whitespace is stored untrimmed; and a preceding header line with an empty
value lets its `\s*` swallow the newline, so a following `Subject:` line
is captured as that header's value and the parsed subject stays empty even
though the header block contains a non-empty `Subject:` line. -/
theorem parseEmail_subject_not_trimmed_cex :
    (parseEmail (fun _ => none) "Subject: hi \n\nx").headers.subject = "hi " ∧
    jsTrimStr "hi " = "hi" ∧ ("hi " : String) ≠ "hi" ∧
    (parseEmail (fun _ => none) "X:\nSubject: hi\n\nb").headers.subject = "" := by
  refine ⟨rfl, rfl, by decide, rfl⟩

/-- Witness for the amended C4: a two-line header block — a `From:` line,
then a `Subject:` line with extra padding after the colon and trailing
spaces in the value — parses to that value verbatim; and an email without
a `Subject:` header parses to an empty subject. -/
theorem parseEmail_subject_amended_witness :
    (parseEmail (fun _ => none)
        ((⟨renderHeaderBlock
            [⟨'F', "rom".data, [' '], 'a', []⟩,
             ⟨'S', "ubject".data, "   ".data, 'h', "i  ".data⟩]⟩ : String) ++
          "\n\n" ++ "b")).headers.subject = "hi  " ∧
    ((⟨renderHeaderBlock
        [⟨'F', "rom".data, [' '], 'a', []⟩,
         ⟨'S', "ubject".data, "   ".data, 'h', "i  ".data⟩]⟩ : String) ++
      "\n\n" ++ "b") = "From: a\nSubject:   hi  \n\nb" ∧
    (parseEmail (fun _ => none) "From: x\n\nbody").headers.subject = "" :=
  ⟨(parseEmail_subject_amended.1 (fun _ => none)
      [⟨'F', "rom".data, [' '], 'a', []⟩,
       ⟨'S', "ubject".data, "   ".data, 'h', "i  ".data⟩]
      "b" (by decide)).trans (by decide),
   by decide,
   parseEmail_subject_amended.2 (fun _ => none) "From: x\n\nbody" (by decide)⟩

/-! ## C7 — content-type driven attachment enrichment -/

/-- Lookup on a cons cell. -/
theorem lookupObj_cons (p : String × Option String) (l : List (String × Option String))
    (k2 : String) :
    lookupObj (p :: l) k2 = if p.1 == k2 then some p.2 else lookupObj l k2 := by
  simp only [lookupObj, List.find?_cons]
  by_cases h : (p.1 == k2) = true <;> simp [h]

/-- Object update then lookup: the updated key reads back the new value,
every other key is unaffected. -/
theorem lookupObj_objInsert (o : List (String × Option String)) (k k2 : String)
    (v : Option String) :
    lookupObj (objInsert o k v) k2 = if k2 = k then some v else lookupObj o k2 := by
  induction o with
  | nil =>
    by_cases h : k2 = k
    · subst h; simp [objInsert, lookupObj_cons]
    · have hbf : (k == k2) = false := beq_eq_false_iff_ne.mpr (fun w => h w.symm)
      simp [objInsert, lookupObj_cons, hbf, h, lookupObj]
  | cons p o ih =>
    by_cases hp : p.1 = k
    · subst hp
      rw [show objInsert (p :: o) p.1 v = (p.1, v) :: o from by simp [objInsert]]
      rw [lookupObj_cons, lookupObj_cons]
      by_cases h : k2 = p.1
      · simp [h]
      · have hbf : (p.1 == k2) = false := beq_eq_false_iff_ne.mpr (fun w => h w.symm)
        simp [hbf, h]
    · simp only [objInsert, if_neg hp]
      rw [lookupObj_cons, lookupObj_cons, ih]
      by_cases h : k2 = k
      · subst h
        have hbf : (p.1 == k2) = false := beq_eq_false_iff_ne.mpr hp
        simp [hbf]
      · simp [h]

/-- The spec's "last write wins" reading of a CSV mapping: the value stored
under a key is the one contributed by the last non-blank line whose header
is that key. -/
def csvLastWrite (decoded : String) (k : String) : Option (Option String) :=
  ((nonBlankLines decoded).reverse.find? (fun l => csvLineHeader l == k)).map
    (fun l => csvLineValue l)

/-- Folding CSV lines into an object realizes last-write-wins lookup. -/
theorem foldl_csv_lookup (lines : List String) (obj : List (String × Option String))
    (k : String) :
    lookupObj (lines.foldl
        (fun o line => objInsert o (csvLineHeader line) (csvLineValue line)) obj) k =
      match lines.reverse.find? (fun l => csvLineHeader l == k) with
      | some l => some (csvLineValue l)
      | none => lookupObj obj k := by
  induction lines generalizing obj with
  | nil => rfl
  | cons l ls ih =>
    rw [List.foldl_cons, ih]
    rw [List.reverse_cons, List.find?_append]
    cases hfind : ls.reverse.find? (fun l2 => csvLineHeader l2 == k) with
    | some l2 => simp [Option.orElse]
    | none =>
      simp only [Option.orElse, Option.none_orElse]
      rw [lookupObj_objInsert]
      by_cases hk : k = csvLineHeader l
      · simp [List.find?_cons, hk, beq_iff_eq]
      · have hbf : (csvLineHeader l == k) = false :=
          beq_eq_false_iff_ne.mpr (fun w => hk w.symm)
        simp [List.find?_cons, hbf, if_neg hk]

/-- C7: every attachment of a parsed email is enriched solely by its
content type — `text/csv` carries exactly the folded flat CSV mapping and
no extracted text, `application/pdf` exposes the decoded content as
`extractedText` and no parsed mapping, and any other type carries neither —
and the CSV mapping realizes last-write-wins: each key reads back the value
of the last non-blank `header,value` line with that header. -/
theorem attachment_enrichment (decode : String → Option String) (e : String)
    (att : EmailAttachment) (hmem : att ∈ (parseEmail decode e).attachments) :
    (att.contentType = "text/csv" →
      att.parsedContent = some (csvParsedContent att.content) ∧ att.extractedText = none) ∧
    (att.contentType = "application/pdf" →
      att.extractedText = some att.content ∧ att.parsedContent = none) ∧
    (att.contentType ≠ "text/csv" → att.contentType ≠ "application/pdf" →
      att.parsedContent = none ∧ att.extractedText = none) ∧
    (∀ k, lookupObj (csvParsedContent att.content) k = csvLastWrite att.content k) := by
  have hmem2 : ∃ b ∈ attachmentBlocksOf e, decodeBlock decode b = some att := by
    simpa [parseEmail, List.mem_filterMap] using hmem
  obtain ⟨b, -, hdec⟩ := hmem2
  have hval : ∀ k, lookupObj (csvParsedContent att.content) k = csvLastWrite att.content k := by
    intro k
    unfold csvParsedContent csvLastWrite
    rw [foldl_csv_lookup]
    cases hf : (nonBlankLines att.content).reverse.find? (fun l => csvLineHeader l == k) <;>
      simp [lookupObj]
  unfold decodeBlock at hdec
  cases hd : decode (jsTrimStr ⟨b.2.2⟩) with
  | none => rw [hd] at hdec; exact absurd hdec (by simp)
  | some decoded =>
    rw [hd] at hdec
    obtain rfl : att = _ := (Option.some.inj hdec).symm
    refine ⟨fun hct => ?_, fun hct => ?_, fun hct1 hct2 => ?_, hval⟩
    · dsimp only at hct ⊢
      rw [hct]
      exact ⟨by simp, by simp⟩
    · dsimp only at hct ⊢
      rw [hct]
      exact ⟨by simp, by simp⟩
    · dsimp only at hct1 hct2 ⊢
      have e1 : ((⟨b.2.1⟩ : String) == "text/csv") = false :=
        beq_eq_false_iff_ne.mpr hct1
      have e2 : ((⟨b.2.1⟩ : String) == "application/pdf") = false :=
        beq_eq_false_iff_ne.mpr hct2
      rw [e1, e2]
      exact ⟨rfl, rfl⟩

/-- Witness for C7: a concrete email with one `text/csv` attachment whose
decoded content repeats a header — the parsed mapping keeps the last
value. -/
theorem attachment_enrichment_witness :
    ({ filename := "d.csv", contentType := "text/csv", content := "a,1\nb,2\na,3",
       parsedContent := some [("a", some "3"), ("b", some "2")],
       extractedText := none } : EmailAttachment).parsedContent =
      some (csvParsedContent "a,1\nb,2\na,3") ∧
    ({ filename := "d.csv", contentType := "text/csv", content := "a,1\nb,2\na,3",
       parsedContent := some [("a", some "3"), ("b", some "2")],
       extractedText := none } : EmailAttachment).extractedText = none ∧
    lookupObj (csvParsedContent "a,1\nb,2\na,3") "a" = some (some "3") := by
  have h := attachment_enrichment (fun _ => some "a,1\nb,2\na,3")
    "S: x\n\n--ATTACHMENT--\nFilename: d.csv\nContent-Type: text/csv\nContent: L\n--END-ATTACHMENT--"
    { filename := "d.csv", contentType := "text/csv", content := "a,1\nb,2\na,3",
      parsedContent := some [("a", some "3"), ("b", some "2")],
      extractedText := none }
    (by decide)
  refine ⟨(h.1 rfl).1, (h.1 rfl).2, ?_⟩
  rw [(h.2.2.2) "a"]
  decide

/-! ## C8 — a bad attachment is dropped, the rest of the parse is unaffected -/

/-- Filtering through a partially-failing decoder yields a sublist of the
fully-decoded list, containing exactly the successes. -/
theorem filterMap_agree_sublist {α β : Type} (f g : α → Option β) (l : List α)
    (hagree : ∀ x ∈ l, f x = none ∨ f x = g x)
    (hall : ∀ x ∈ l, (g x).isSome = true) :
    (l.filterMap f).Sublist (l.filterMap g) ∧
    (l.filterMap f).length = (l.filter (fun x => (f x).isSome)).length := by
  induction l with
  | nil => exact ⟨List.Sublist.refl _, rfl⟩
  | cons x xs ih =>
    obtain ⟨ihs, ihl⟩ := ih (fun y hy => hagree y (List.mem_cons_of_mem x hy))
      (fun y hy => hall y (List.mem_cons_of_mem x hy))
    obtain ⟨b, hb⟩ := Option.isSome_iff_exists.mp (hall x (List.mem_cons_self x xs))
    rcases hagree x (List.mem_cons_self x xs) with hfx | hfx
    · constructor
      · rw [List.filterMap_cons, hfx, List.filterMap_cons, hb]
        exact ihs.cons b
      · rw [List.filterMap_cons, hfx, List.filter_cons]
        simp only [hfx, Option.isSome_none]
        simpa using ihl
    · constructor
      · rw [List.filterMap_cons, hfx, hb, List.filterMap_cons, hb]
        exact ihs.cons₂ b
      · rw [List.filterMap_cons, hfx, hb, List.filter_cons]
        simp only [hfx, hb, Option.isSome_some]
        simpa using ihl

/-- C8: a base64-decoding failure in one attachment block drops only that
attachment.  The parser does not raise (it is total), the headers and body
are identical to a parse in which every block decodes, and the attachment
list is a sublist of the fully-decoded one containing exactly the
successfully-decoded blocks, in order. -/
theorem parseEmail_bad_attachment_dropped (e : String)
    (decodeBad decodeGood : String → Option String)
    (hagree : ∀ b ∈ attachmentBlocksOf e,
      decodeBlock decodeBad b = none ∨ decodeBlock decodeBad b = decodeBlock decodeGood b)
    (hall : ∀ b ∈ attachmentBlocksOf e, (decodeBlock decodeGood b).isSome = true) :
    (parseEmail decodeBad e).headers = (parseEmail decodeGood e).headers ∧
    (parseEmail decodeBad e).body = (parseEmail decodeGood e).body ∧
    (parseEmail decodeBad e).attachments.Sublist (parseEmail decodeGood e).attachments ∧
    (parseEmail decodeBad e).attachments.length =
      ((attachmentBlocksOf e).filter (fun b => (decodeBlock decodeBad b).isSome)).length := by
  obtain ⟨hs, hl⟩ := filterMap_agree_sublist (decodeBlock decodeBad)
    (decodeBlock decodeGood) (attachmentBlocksOf e) hagree hall
  exact ⟨rfl, rfl, hs, hl⟩

set_option maxRecDepth 4000 in
/-- Witness for C8: two attachment blocks, the second of which fails to
decode — the first is still decoded, headers and body are unchanged. -/
theorem parseEmail_bad_attachment_dropped_witness :
    (parseEmail (fun s => if s == "BAD" then none else some s)
        "A: b\n\nbody\n--ATTACHMENT--\nFilename: f\nContent-Type: t\nContent: X\n--END-ATTACHMENT--\n--ATTACHMENT--\nFilename: g\nContent-Type: t\nContent: BAD\n--END-ATTACHMENT--").headers =
      (parseEmail (fun s => some s)
        "A: b\n\nbody\n--ATTACHMENT--\nFilename: f\nContent-Type: t\nContent: X\n--END-ATTACHMENT--\n--ATTACHMENT--\nFilename: g\nContent-Type: t\nContent: BAD\n--END-ATTACHMENT--").headers ∧
    (parseEmail (fun s => if s == "BAD" then none else some s)
        "A: b\n\nbody\n--ATTACHMENT--\nFilename: f\nContent-Type: t\nContent: X\n--END-ATTACHMENT--\n--ATTACHMENT--\nFilename: g\nContent-Type: t\nContent: BAD\n--END-ATTACHMENT--").body =
      (parseEmail (fun s => some s)
        "A: b\n\nbody\n--ATTACHMENT--\nFilename: f\nContent-Type: t\nContent: X\n--END-ATTACHMENT--\n--ATTACHMENT--\nFilename: g\nContent-Type: t\nContent: BAD\n--END-ATTACHMENT--").body ∧
    (parseEmail (fun s => if s == "BAD" then none else some s)
        "A: b\n\nbody\n--ATTACHMENT--\nFilename: f\nContent-Type: t\nContent: X\n--END-ATTACHMENT--\n--ATTACHMENT--\nFilename: g\nContent-Type: t\nContent: BAD\n--END-ATTACHMENT--").attachments.Sublist
      (parseEmail (fun s => some s)
        "A: b\n\nbody\n--ATTACHMENT--\nFilename: f\nContent-Type: t\nContent: X\n--END-ATTACHMENT--\n--ATTACHMENT--\nFilename: g\nContent-Type: t\nContent: BAD\n--END-ATTACHMENT--").attachments ∧
    (parseEmail (fun s => if s == "BAD" then none else some s)
        "A: b\n\nbody\n--ATTACHMENT--\nFilename: f\nContent-Type: t\nContent: X\n--END-ATTACHMENT--\n--ATTACHMENT--\nFilename: g\nContent-Type: t\nContent: BAD\n--END-ATTACHMENT--").attachments.length =
      ((attachmentBlocksOf
        "A: b\n\nbody\n--ATTACHMENT--\nFilename: f\nContent-Type: t\nContent: X\n--END-ATTACHMENT--\n--ATTACHMENT--\nFilename: g\nContent-Type: t\nContent: BAD\n--END-ATTACHMENT--").filter
        (fun b => (decodeBlock (fun s => if s == "BAD" then none else some s) b).isSome)).length :=
  parseEmail_bad_attachment_dropped _ _ _ (by decide) (by decide)

/-! ## C6 — submission failures are wrapped and logged -/

/-- C6 (amended): every external submission failure is wrapped naming the
target system and re-raised; the orchestrator catches it and logs an
explicit "Error creating ticket" line.  Whenever the single-email handler
returns (rather than throwing), its log ends in one of the three advertised
resolutions — a queued-for-review notice, a created-ticket confirmation,
or an explicit submission-error line.  The only way the handler can throw
is a `JSON.parse` failure on a truthy, non-`'{}'` provider response — that
exception escapes to the command handler's generic catch, a fourth outcome
the original claim does not list. -/
theorem submission_failures_wrapped_and_logged :
    (∀ (env : PipelineEnv) (t : JiraTicket) (e : String), env.jira t = .error e →
      submitJiraTicket env t = .error ("Failed to create Jira ticket: " ++ e)) ∧
    (∀ (env : PipelineEnv) (t : ServiceNowTicket) (e : String), env.servicenow t = .error e →
      submitServiceNowTicket env t = .error ("Failed to create ServiceNow ticket: " ++ e)) ∧
    (∀ env c msgs pushed, handleSingleEmailAnalysis env c = .ok (msgs, pushed) →
      ("👤 Email has been queued for human review" ∈ msgs) ∨
      ("✅ Jira ticket created successfully!" ∈ msgs) ∨
      ("✅ ServiceNow ticket created successfully!" ∈ msgs) ∨
      (∃ emsg, ("❌ Error creating ticket: " ++ emsg) ∈ msgs)) ∧
    (∀ env c e, handleSingleEmailAnalysis env c = .error e →
      ∃ r, env.chat c = some r ∧ r ≠ "" ∧ r ≠ "{}" ∧ env.jsonParse r = .error e) := by
  refine ⟨?_, ?_, ?_, ?_⟩
  · intro env t e h
    unfold submitJiraTicket
    rw [h]
  · intro env t e h
    unfold submitServiceNowTicket
    rw [h]
  · intro env c msgs pushed h
    unfold handleSingleEmailAnalysis at h
    dsimp only at h
    split at h
    · exact absurd h (by simp)
    · split at h
      · obtain ⟨h1, -⟩ := Prod.mk.injEq .. ▸ Except.ok.inj h
        subst h1
        exact Or.inl (by simp)
      · split at h
        · obtain ⟨h1, -⟩ := Prod.mk.injEq .. ▸ Except.ok.inj h
          subst h1
          exact Or.inl (by simp)
        · split at h
          · obtain ⟨h1, -⟩ := Prod.mk.injEq .. ▸ Except.ok.inj h
            subst h1
            exact Or.inl (by simp)
          · split at h
            · split at h
              · obtain ⟨h1, -⟩ := Prod.mk.injEq .. ▸ Except.ok.inj h
                subst h1
                rename_i e _
                exact Or.inr (Or.inr (Or.inr ⟨e, by simp⟩))
              · obtain ⟨h1, -⟩ := Prod.mk.injEq .. ▸ Except.ok.inj h
                subst h1
                exact Or.inr (Or.inl (by simp))
            · split at h
              · split at h
                · obtain ⟨h1, -⟩ := Prod.mk.injEq .. ▸ Except.ok.inj h
                  subst h1
                  rename_i e _
                  exact Or.inr (Or.inr (Or.inr ⟨e, by simp⟩))
                · obtain ⟨h1, -⟩ := Prod.mk.injEq .. ▸ Except.ok.inj h
                  subst h1
                  exact Or.inr (Or.inr (Or.inl (by simp)))
              · rename_i analysis heqp hnebr hval hjira hsnow
                have hmem := classifyTicketType_mem analysis
                simp only [List.mem_cons, List.not_mem_nil, or_false] at hmem
                rcases hmem with hcl | hcl | hcl | hcl | hcl | hcl | hcl <;>
                  rw [hcl] at hjira hsnow <;>
                  first
                    | exact absurd (by decide) hjira
                    | exact absurd (by decide) hsnow
  · intro env c e h
    unfold handleSingleEmailAnalysis at h
    dsimp only at h
    split at h
    · rename_i e2 hpar
      obtain rfl : e2 = e := Except.error.inj h
      split at hpar
      · rename_i hcond
        obtain ⟨htr, hne⟩ := Bool.and_eq_true_iff.mp hcond
        cases hchat : env.chat c with
        | none => rw [hchat] at htr; exact absurd htr (by simp [jsTruthy])
        | some r =>
          rw [hchat] at htr hne hpar
          refine ⟨r, rfl, ?_, ?_, hpar⟩
          · intro hcon
            rw [hcon] at htr
            exact absurd htr (by simp [jsTruthy])
          · intro hcon
            rw [hcon] at hne
            exact absurd hne (by simp)
      · exact absurd hpar (by simp)
    · split at h
      · exact absurd h (by simp)
      · rename_i analysis
        split at h
        · exact absurd h (by simp)
        · split at h
          · exact absurd h (by simp)
          · split at h
            · split at h <;> exact absurd h (by simp)
            · split at h
              · split at h <;> exact absurd h (by simp)
              · exact absurd h (by simp)

/-- Counterexample to C6 as stated: a provider response that is truthy and
not `'{}'` but fails JSON parsing makes the single-email handler throw —
the caller gets an exception (surfaced by the outer command handler as a
generic `Error:` message), not a created / queued / submission-error
resolution. -/
theorem single_email_crash_cex :
    handleSingleEmailAnalysis
      { chat := fun _ => some "garbage",
        jsonParse := fun _ => .error "Unexpected token g in JSON",
        jira := fun _ => .ok "PROJ-1", servicenow := fun _ => .ok "INC1",
        readFile := fun _ => .error "unused" } "x" =
      .error "Unexpected token g in JSON" := rfl

/-- Witness for the amended C6: a failing Jira endpoint is wrapped naming
Jira; the run's log ends in an explicit submission-error line; a parse
throw is traced back to the provider response. -/
theorem submission_failures_wrapped_and_logged_witness :
    submitJiraTicket
      { chat := fun _ => some "J", jsonParse := fun _ => .error "unused",
        jira := fun _ => .error "401 Unauthorized", servicenow := fun _ => .ok "INC1",
        readFile := fun _ => .error "unused" }
      { type := "bug", title := "t", description := none, priority := none,
        accountNumber := none, customerId := none, attachments := none } =
      .error ("Failed to create Jira ticket: " ++ "401 Unauthorized") ∧
    (∃ r, (fun (_ : String) => some "garbage") "x" = some r ∧ r ≠ "" ∧ r ≠ "{}" ∧
      (fun (_ : String) => (.error "Unexpected token g in JSON" :
        Except String (Option EmailAnalysis))) r = .error "Unexpected token g in JSON") :=
  ⟨submission_failures_wrapped_and_logged.1 _ _ "401 Unauthorized" rfl,
   submission_failures_wrapped_and_logged.2.2.2
     { chat := fun _ => some "garbage",
       jsonParse := fun _ => .error "Unexpected token g in JSON",
       jira := fun _ => .ok "PROJ-1", servicenow := fun _ => .ok "INC1",
       readFile := fun _ => .error "unused" } "x" "Unexpected token g in JSON" rfl⟩

/-! ## C5 — bulk processing -/

/-- The two summary counts partition the `results` array. -/
theorem countCreated_add_countNotCreated (results : List (String × String)) :
    countCreated results + countNotCreated results = results.length := by
  unfold countCreated countNotCreated
  induction results with
  | nil => rfl
  | cons r rs ih =>
    rw [List.filter_cons, List.filter_cons]
    by_cases h : strContains r.2 "created successfully" = true <;>
      simp [h, Nat.add_assoc, Nat.add_comm, Nat.add_left_comm] <;> omega

/-- Per-file behavior of the bulk loop: the `results` entries are exactly
the exception-free files, in input order, and every input file (failed or
not) gets its `File:` line in the log. -/
theorem bulkLoop_spec (env : PipelineEnv) (n : Nat) (fs : List String) (i : Nat) :
    (bulkLoop env n fs i).2.1.map Prod.fst = fs.filter (fileProcessedOk env) ∧
    ∀ f ∈ fs, ("📁 File: " ++ f) ∈ (bulkLoop env n fs i).1 := by
  induction fs generalizing i with
  | nil => exact ⟨rfl, by simp⟩
  | cons f fs ih =>
    obtain ⟨ih1, ih2⟩ := ih (i + 1)
    cases hr : env.readFile f with
    | error e =>
      have hok : fileProcessedOk env f = false := by unfold fileProcessedOk; rw [hr]
      constructor
      · simp only [bulkLoop, hr, List.filter_cons, hok]
        exact ih1
      · intro g hg
        simp only [bulkLoop, hr, List.mem_append, List.mem_cons]
        rcases List.mem_cons.mp hg with rfl | hg
        · simp
        · exact Or.inr (ih2 g hg)
    | ok content =>
      cases hs : handleSingleEmailAnalysis env content with
      | error e =>
        have hok : fileProcessedOk env f = false := by
          unfold fileProcessedOk; rw [hr]; dsimp only; rw [hs]
        constructor
        · simp only [bulkLoop, hr, hs, List.filter_cons, hok]
          exact ih1
        · intro g hg
          simp only [bulkLoop, hr, hs, List.mem_append, List.mem_cons]
          rcases List.mem_cons.mp hg with rfl | hg
          · simp
          · exact Or.inr (ih2 g hg)
      | ok r =>
        have hok : fileProcessedOk env f = true := by
          unfold fileProcessedOk; rw [hr]; dsimp only; rw [hs]
        constructor
        · simp only [bulkLoop, hr, hs, List.filter_cons, hok, List.map_cons, if_true]
          rw [ih1]
        · intro g hg
          simp only [bulkLoop, hr, hs, List.mem_append, List.mem_cons]
          rcases List.mem_cons.mp hg with rfl | hg
          · simp
          · exact Or.inr (ih2 g hg)

/-- C5 (amended): bulk mode runs the single-email pipeline once per input
file, strictly in input order; a failure reading or analyzing one file is
caught, an error line is appended to the log, and subsequent files are
still processed (every input file gets its `File:` line); the trailing
summary line reports the input-file total together with the
created/not-created counts, but those two counts partition only the files
that completed without an exception — a file whose read or analysis threw
is counted in neither. -/
theorem bulk_order_fault_isolation_counts (env : PipelineEnv) (files : List String) :
    (handleBulkAnalysis env files).2.1.map Prod.fst = files.filter (fileProcessedOk env) ∧
    (∀ f ∈ files, ("📁 File: " ++ f) ∈ (handleBulkAnalysis env files).1) ∧
    countCreated (handleBulkAnalysis env files).2.1 +
        countNotCreated (handleBulkAnalysis env files).2.1 =
      (files.filter (fileProcessedOk env)).length ∧
    bulkSummary files.length (handleBulkAnalysis env files).2.1 ∈
      (handleBulkAnalysis env files).1 := by
  obtain ⟨h1, h2⟩ := bulkLoop_spec env files.length files 0
  refine ⟨h1, ?_, ?_, ?_⟩
  · intro f hf
    unfold handleBulkAnalysis
    simp only [List.mem_cons, List.mem_append]
    exact Or.inr (Or.inl (h2 f hf))
  · rw [countCreated_add_countNotCreated]
    have h1b : (handleBulkAnalysis env files).2.1.map Prod.fst =
        files.filter (fileProcessedOk env) := h1
    rw [← h1b, List.length_map]
  · unfold handleBulkAnalysis
    simp

/-- The demo analysis used by the concrete bulk runs: complete and
classified as a Jira bug. -/
def demoAnalysis : EmailAnalysis :=
  { requestType := some "Bug Report", priority := some "high", keyPoints := none,
    actionItems := none, accountNumber := some "ACC123456", customerId := none,
    subject := some "Bug Report: Crash", content := some "App crashes on launch.",
    additionalFields := none, attachments := none }

/-- A concrete environment whose `bad.eml` fails to read and whose other
files analyze successfully into a created Jira ticket. -/
def bulkDemoEnv : PipelineEnv :=
  { chat := fun _ => some "J"
    jsonParse := fun _ => .ok (some demoAnalysis)
    jira := fun _ => .ok "PROJ-123"
    servicenow := fun _ => .ok "INC001"
    readFile := fun f => if f == "bad.eml" then .error "ENOENT" else .ok "raw email" }

/-- Counterexample to C5 as stated: with one unreadable input file the
summary's two counts (0 created, 0 queued/failed) do not cover the one
input file — the failing file appears in neither count, while the summary
still reports one file processed. -/
theorem bulk_counts_not_covering_cex :
    countCreated (handleBulkAnalysis bulkDemoEnv ["bad.eml"]).2.1 +
        countNotCreated (handleBulkAnalysis bulkDemoEnv ["bad.eml"]).2.1 ≠
      (["bad.eml"] : List String).length ∧
    "\n📊 Summary:\n✅ Total emails processed: 1\n🎫 Tickets created: 0\n⚠️ Failed/Queued for review: 0" ∈
      (handleBulkAnalysis bulkDemoEnv ["bad.eml"]).1 := by
  constructor
  · decide
  · decide

/-- Witness for the amended C5: one failing and one succeeding file — the
failing file still gets its log line, the results cover exactly the
succeeding file, and the counts sum to one. -/
theorem bulk_order_fault_isolation_counts_witness :
    (handleBulkAnalysis bulkDemoEnv ["bad.eml", "ok.eml"]).2.1.map Prod.fst = ["ok.eml"] ∧
    ("📁 File: bad.eml" ∈ (handleBulkAnalysis bulkDemoEnv ["bad.eml", "ok.eml"]).1) ∧
    countCreated (handleBulkAnalysis bulkDemoEnv ["bad.eml", "ok.eml"]).2.1 +
        countNotCreated (handleBulkAnalysis bulkDemoEnv ["bad.eml", "ok.eml"]).2.1 = 1 := by
  have h := bulk_order_fault_isolation_counts bulkDemoEnv ["bad.eml", "ok.eml"]
  refine ⟨h.1.trans (by decide), h.2.1 "bad.eml" (by decide), h.2.2.1.trans (by decide)⟩

end EmailAnalyzer
